import Mathlib

/-!
Shallow embedding of `acme_tiny.py` (letsencrypt-esxi), the ACME client core.

Conventions used throughout:
* Byte strings are `List Nat` (each entry `< 256` where it matters).
* Python text strings are Lean `String`s; all protocol strings are ASCII
  (`json.dumps` has `ensure_ascii=True`), so UTF-8 encoding of a string is
  modelled as `Char.toNat` per character.
* JSON values are the inductive `JVal`; an HTTP body after the
  `json.loads` attempt of `_do_request` (lines 45-48) is a `Body`:
  `.json v` when the text parsed, `.raw s` when parsing failed and the
  text is kept as a plain string.
* Python exceptions are the inductive `Err`; a computation in `get_crt`
  is `M α = St → Except (Err × St) (α × St)`: exceptions do not roll back
  side effects, so an error also carries the state at the raise.
* Externally visible side effects (HTTP requests, challenge-file writes
  and removals, DNS API invocations, sleeps) are recorded as `Event`s in
  the state; the CA, the signer (openssl), the filesystem check for the
  DNS script and the DNS provisioning script are an `Env` of oracles.
-/

namespace AcmeTiny

/-- characters admitted by the token sanitiser `re.sub(r"[^A-Za-z0-9_\-]", "_", token)`
(acme_tiny.py line 170). -/
def isAllowedTokenChar (c : Char) : Bool :=
  ('A' ≤ c && c ≤ 'Z') || ('a' ≤ c && c ≤ 'z') || ('0' ≤ c && c ≤ '9') || c = '_' || c = '-'

/-- model of `re.sub(r"[^A-Za-z0-9_\-]", "_", token)` (line 170): every character
outside `[A-Za-z0-9_-]` is replaced by an underscore. -/
def sanitizeToken (s : String) : String :=
  String.mk (s.data.map (fun c => if isAllowedTokenChar c then c else '_'))

/-- alphabet of `base64.urlsafe_b64encode`. -/
def b64urlAlphabet : List Char :=
  "ABCDEFGHIJKLMNOPQRSTUVWXYZabcdefghijklmnopqrstuvwxyz0123456789-_".data

/-- digit of the url-safe base64 alphabet. -/
def b64Char (n : Nat) : Char := b64urlAlphabet.getD n 'A'

/-- model of `_b64_encode_jose` (line 16-17):
`base64.urlsafe_b64encode(b).decode('utf8').replace("=", "")`, i.e. url-safe
base64 with the `=` padding stripped. -/
def b64_encode_jose : List Nat → String
  | [] => ""
  | [a] => String.mk [b64Char (a / 4), b64Char (a % 4 * 16)]
  | [a, b] => String.mk [b64Char (a / 4), b64Char (a % 4 * 16 + b / 16), b64Char (b % 16 * 4)]
  | a :: b :: c :: rest =>
      String.mk [b64Char (a / 4), b64Char (a % 4 * 16 + b / 16),
                 b64Char (b % 16 * 4 + c / 64), b64Char (c % 64)]
        ++ b64_encode_jose rest

/-- UTF-8 bytes of a string; protocol strings are ASCII (`json.dumps` uses
`ensure_ascii=True`), so one character is one byte. -/
def strBytes (s : String) : List Nat := s.data.map Char.toNat

/-- lowercase hexadecimal digit characters, as used by `"{0:x}".format`. -/
def hexDigitChar (n : Nat) : Char := "0123456789abcdef".data.getD n '0'

/-- big-endian base-16 digit values of a natural number; the digit list of
`"{0:x}".format(n)` (line 108): minimal, no leading zero digit for `n > 0`. -/
def natHexDigits (n : Nat) : List Nat :=
  if _h : n < 16 then [n]
  else natHexDigits (n / 16) ++ [n % 16]
termination_by n
decreasing_by
  exact Nat.div_lt_self (Nat.lt_of_lt_of_le (by norm_num) (Nat.le_of_not_lt _h)) (by norm_num)

/-- model of line 109: `"0{0}".format(pub_exp) if len(pub_exp) % 2 else pub_exp` —
prepend a zero nibble when the hex digit string has odd length. -/
def padEvenHex (ds : List Nat) : List Nat :=
  if ds.length % 2 = 1 then 0 :: ds else ds

/-- model of `binascii.unhexlify` on an even-length digit-value list: consecutive
digit pairs become bytes (inputs of the program are always even-length). -/
def hexPairsToBytes : List Nat → List Nat
  | d1 :: d2 :: rest => (16 * d1 + d2) :: hexPairsToBytes rest
  | _ => []

/-- big-endian byte list read back as a natural number. -/
def bytesToNat (bs : List Nat) : Nat := bs.foldl (fun acc b => 256 * acc + b) 0

/-- big-endian base-16 digit list read back as a natural number. -/
def hexDigitsToNat (ds : List Nat) : Nat := ds.foldl (fun acc d => 16 * acc + d) 0

/-- bytes of the account public exponent as computed on lines 108-109 and 111:
minimal lowercase hex of the integer, padded to even length, then unhexlified. -/
def pubExpBytes (e : Nat) : List Nat := hexPairsToBytes (padEvenHex (natHexDigits e))

/-- numeric value of one hex character (the captures of the modulus regex are
`[a-f0-9]`). -/
def hexCharVal (c : Char) : Nat :=
  if '0' ≤ c && c ≤ '9' then c.toNat - 48
  else if 'a' ≤ c && c ≤ 'f' then c.toNat - 87
  else 0

/-- model of `re.sub(r"(\s|:)", "", pub_hex)` (line 113): drop colons and
whitespace from the captured modulus hex text. -/
def stripWsColon (s : String) : String :=
  String.mk (s.data.filter (fun c =>
    !(c = ':' || c = ' ' || c = '\n' || c = '\t' || c = '\r' || c = '\x0b' || c = '\x0c')))

/-- bytes of the account modulus as computed on line 113. -/
def modulusBytes (pubHex : String) : List Nat :=
  hexPairsToBytes ((stripWsColon pubHex).data.map hexCharVal)

/-! SHA-256 (`hashlib.sha256`, an external library primitive, implemented
concretely so the development stays executable). Arithmetic is `Nat` with
explicit reduction modulo `2^32`. -/

/-- reduce modulo `2^32`. -/
def w32 (n : Nat) : Nat := n % 4294967296

/-- logical right shift on 32-bit words. -/
def shr32 (x n : Nat) : Nat := x / 2 ^ n

/-- right rotation on 32-bit words. -/
def rotr32 (x n : Nat) : Nat := w32 (x / 2 ^ n + x % 2 ^ n * 2 ^ (32 - n))

/-- bitwise complement on 32-bit words. -/
def not32 (x : Nat) : Nat := 4294967295 - w32 x

/-- SHA-256 round constants. -/
def sha256K : List Nat :=
  [1116352408, 1899447441, 3049323471, 3921009573, 961987163, 1508970993,
   2453635748, 2870763221, 3624381080, 310598401, 607225278, 1426881987,
   1925078388, 2162078206, 2614888103, 3248222580, 3835390401, 4022224774,
   264347078, 604807628, 770255983, 1249150122, 1555081692, 1996064986,
   2554220882, 2821834349, 2952996808, 3210313671, 3336571891, 3584528711,
   113926993, 338241895, 666307205, 773529912, 1294757372, 1396182291,
   1695183700, 1986661051, 2177026350, 2456956037, 2730485921, 2820302411,
   3259730800, 3345764771, 3516065817, 3600352804, 4094571909, 275423344,
   430227734, 506948616, 659060556, 883997877, 958139571, 1322822218,
   1537002063, 1747873779, 1955562222, 2024104815, 2227730452, 2361852424,
   2428436474, 2756734187, 3204031479, 3329325298]

/-- working state of the SHA-256 compression function. -/
structure Sha8 where
  a : Nat
  b : Nat
  c : Nat
  d : Nat
  e : Nat
  f : Nat
  g : Nat
  h : Nat

/-- initial SHA-256 hash state. -/
def sha256Init : Sha8 :=
  ⟨1779033703, 3144134277, 1013904242, 2773480762, 1359893119, 2600822924, 528734635, 1541459225⟩

/-- SHA-256 message padding: append `0x80`, zeros, and the 64-bit big-endian
bit length. -/
def sha256Pad (msg : List Nat) : List Nat :=
  let L := 8 * msg.length
  let zeros := (119 - msg.length % 64) % 64
  msg ++ [0x80] ++ List.replicate zeros 0 ++
    [L / 2 ^ 56 % 256, L / 2 ^ 48 % 256, L / 2 ^ 40 % 256, L / 2 ^ 32 % 256,
     L / 2 ^ 24 % 256, L / 2 ^ 16 % 256, L / 2 ^ 8 % 256, L % 256]

/-- split a byte list into 64-byte chunks. -/
def chunks64 : List Nat → List (List Nat)
  | [] => []
  | x :: rest => ((x :: rest).take 64) :: chunks64 ((x :: rest).drop 64)
termination_by l => l.length
decreasing_by simp [List.length_drop]; omega

/-- big-endian 32-bit words of a chunk. -/
def bytesToWords : List Nat → List Nat
  | b0 :: b1 :: b2 :: b3 :: rest =>
      (b0 * 2 ^ 24 + b1 * 2 ^ 16 + b2 * 2 ^ 8 + b3) :: bytesToWords rest
  | _ => []

/-- extend the 16 message words to the 64-entry message schedule. -/
def sha256Extend (ws : List Nat) : Nat → List Nat
  | 0 => ws
  | k + 1 =>
      let n := ws.length
      let s0 :=
        Nat.xor (Nat.xor (rotr32 (ws.getD (n - 15) 0) 7) (rotr32 (ws.getD (n - 15) 0) 18))
          (shr32 (ws.getD (n - 15) 0) 3)
      let s1 :=
        Nat.xor (Nat.xor (rotr32 (ws.getD (n - 2) 0) 17) (rotr32 (ws.getD (n - 2) 0) 19))
          (shr32 (ws.getD (n - 2) 0) 10)
      sha256Extend (ws ++ [w32 (ws.getD (n - 16) 0 + s0 + ws.getD (n - 7) 0 + s1)]) k

/-- one SHA-256 compression round. -/
def sha256Round (st : Sha8) (kw : Nat × Nat) : Sha8 :=
  let S1 := Nat.xor (Nat.xor (rotr32 st.e 6) (rotr32 st.e 11)) (rotr32 st.e 25)
  let ch := Nat.xor (Nat.land st.e st.f) (Nat.land (not32 st.e) st.g)
  let t1 := w32 (st.h + S1 + ch + kw.1 + kw.2)
  let S0 := Nat.xor (Nat.xor (rotr32 st.a 2) (rotr32 st.a 13)) (rotr32 st.a 22)
  let mj := Nat.xor (Nat.xor (Nat.land st.a st.b) (Nat.land st.a st.c)) (Nat.land st.b st.c)
  let t2 := w32 (S0 + mj)
  ⟨w32 (t1 + t2), st.a, st.b, st.c, w32 (st.d + t1), st.e, st.f, st.g⟩

/-- process one 64-byte chunk. -/
def sha256Chunk (st : Sha8) (chunk : List Nat) : Sha8 :=
  let ws := sha256Extend (bytesToWords chunk) 48
  let r := (sha256K.zip ws).foldl sha256Round st
  ⟨w32 (st.a + r.a), w32 (st.b + r.b), w32 (st.c + r.c), w32 (st.d + r.d),
   w32 (st.e + r.e), w32 (st.f + r.f), w32 (st.g + r.g), w32 (st.h + r.h)⟩

/-- big-endian bytes of a 32-bit word. -/
def wordBytes (x : Nat) : List Nat :=
  [x / 2 ^ 24 % 256, x / 2 ^ 16 % 256, x / 2 ^ 8 % 256, x % 256]

/-- SHA-256 digest of a byte string, as 32 bytes. -/
def sha256 (msg : List Nat) : List Nat :=
  let st := (chunks64 (sha256Pad msg)).foldl sha256Chunk sha256Init
  wordBytes st.a ++ wordBytes st.b ++ wordBytes st.c ++ wordBytes st.d ++
  wordBytes st.e ++ wordBytes st.f ++ wordBytes st.g ++ wordBytes st.h

/-! JSON values and `json.dumps`. -/

/-- JSON values, as produced by `json.loads`; `.obj` fields are in insertion
order (Python dicts preserve insertion order). -/
inductive JVal where
  | str (s : String)
  | num (n : Int)
  | bool (b : Bool)
  | null
  | obj (kvs : List (String × JVal))
  | arr (xs : List JVal)

/-- model of Python `v == s` for a JSON value and a string: equal exactly when
`v` is that string (values of other types compare unequal, without raising). -/
def jvalIsStr (v : JVal) (s : String) : Bool :=
  match v with
  | .str t => t == s
  | _ => false

/-- escape of one character in a `json.dumps` string literal
(`ensure_ascii=True`; the program only serialises ASCII, so astral-plane
surrogate pairs are out of scope). -/
def jsonEscapeChar (c : Char) : String :=
  if c = '"' then "\\\""
  else if c = '\\' then "\\\\"
  else if c = '\n' then "\\n"
  else if c = '\r' then "\\r"
  else if c = '\t' then "\\t"
  else if c = '\x08' then "\\b"
  else if c = '\x0c' then "\\f"
  else if c.toNat < 32 || c.toNat > 126 then
    "\\u" ++ String.mk [hexDigitChar (c.toNat / 4096 % 16), hexDigitChar (c.toNat / 256 % 16),
                        hexDigitChar (c.toNat / 16 % 16), hexDigitChar (c.toNat % 16)]
  else String.mk [c]

/-- escaped body of a `json.dumps` string literal. -/
def escString : List Char → String
  | [] => ""
  | c :: rest => jsonEscapeChar c ++ escString rest

/-- a `json.dumps` string literal. -/
def jsonQuote (s : String) : String :=
  "\"" ++ escString s.data ++ "\""

mutual
/-- model of `json.dumps` with the default separators `", "` and `": "`,
as used on lines 57, 61 and 64. -/
def pyDumps : JVal → String
  | .str s => jsonQuote s
  | .num n => toString n
  | .bool true => "true"
  | .bool false => "false"
  | .null => "null"
  | .obj kvs => "\x7b" ++ pyDumpsObjItems kvs ++ "\x7d"
  | .arr xs => "[" ++ pyDumpsArrItems xs ++ "]"

/-- comma-separated object items of `pyDumps`. -/
def pyDumpsObjItems : List (String × JVal) → String
  | [] => ""
  | [(k, v)] => jsonQuote k ++ ": " ++ pyDumps v
  | (k, v) :: kv :: rest => jsonQuote k ++ ": " ++ pyDumps v ++ ", " ++ pyDumpsObjItems (kv :: rest)

/-- comma-separated array items of `pyDumps`. -/
def pyDumpsArrItems : List JVal → String
  | [] => ""
  | [v] => pyDumps v
  | v :: w :: rest => pyDumps v ++ ", " ++ pyDumpsArrItems (w :: rest)
end

/-- Python string order (code-point lexicographic), as a boolean; this is the
order `sorted`/`sort_keys` uses. -/
def charListLeB : List Char → List Char → Bool
  | [], _ => true
  | _ :: _, [] => false
  | a :: as, b :: bs =>
      if a.toNat < b.toNat then true
      else if b.toNat < a.toNat then false
      else charListLeB as bs

/-- code-point lexicographic string comparison. -/
def strLeB (a b : String) : Bool := charListLeB a.data b.data

/-- insertion step of a stable sort by key. -/
def insertByKey (kv : String × String) : List (String × String) → List (String × String)
  | [] => [kv]
  | x :: rest => if strLeB kv.1 x.1 then kv :: x :: rest else x :: insertByKey kv rest

/-- stable ascending sort by key, modelling `sort_keys=True`. -/
def sortByKey (l : List (String × String)) : List (String × String) := l.foldr insertByKey []

/-- compact comma-separated `"key":"value"` items. -/
def compactItems : List (String × String) → String
  | [] => ""
  | [(k, v)] => jsonQuote k ++ ":" ++ jsonQuote v
  | (k, v) :: x :: rest => jsonQuote k ++ ":" ++ jsonQuote v ++ "," ++ compactItems (x :: rest)

/-- model of `json.dumps(obj, sort_keys=True, separators=(',', ':'))` for an
object whose values are strings (line 115). -/
def pyDumpsSortedCompact (kvs : List (String × String)) : String :=
  "\x7b" ++ compactItems (sortByKey kvs) ++ "\x7d"

/-! the account JWK and thumbprint (lines 106-116). -/

/-- the JWK fields in the insertion order of the dict literal on lines 110-114:
`e`, `kty`, `n`. -/
def jwkPairs (pubHex : String) (e : Nat) : List (String × String) :=
  [("e", b64_encode_jose (pubExpBytes e)),
   ("kty", "RSA"),
   ("n", b64_encode_jose (modulusBytes pubHex))]

/-- model of `accountkey_json` (line 115). -/
def accountKeyJson (pubHex : String) (e : Nat) : String :=
  pyDumpsSortedCompact (jwkPairs pubHex e)

/-- model of `thumbprint` (line 116). -/
def accountThumbprint (pubHex : String) (e : Nat) : String :=
  b64_encode_jose (sha256 (strBytes (accountKeyJson pubHex e)))

/-- the JWK as a JSON value, as embedded in JWS protected headers. -/
def jwkJVal (pubHex : String) (e : Nat) : JVal :=
  .obj ((jwkPairs pubHex e).map (fun kv => (kv.1, .str kv.2)))

/-! challenge-file path handling. -/

/-- whether a string starts with a slash. -/
def startsWithSlash (s : String) : Bool :=
  match s.data with
  | [] => false
  | c :: _ => c = '/'

/-- whether a string ends with a slash. -/
def endsWithSlash (s : String) : Bool :=
  match s.data.getLast? with
  | some c => c = '/'
  | none => false

/-- model of `os.path.join(a, b)` on POSIX: an absolute second component
replaces the first; otherwise a separator is inserted unless already present. -/
def osPathJoin (a b : String) : String :=
  if startsWithSlash b then b
  else if a = "" || endsWithSlash a then a ++ b
  else a ++ "/" ++ b

/-! the protocol model. -/

/-- an HTTP response body after the `json.loads` attempt of lines 45-48:
parsed on success, the raw text when parsing raised `ValueError`. -/
inductive Body where
  | json (v : JVal)
  | raw (s : String)

/-- outcome of one `urlopen` call, as classified by the `try` of lines 33-44.
`urllib` only returns normally for 2xx status codes; any other status raises
`HTTPError`, which carries the status, the (readable) body and the HTTP
reason phrase, and which in Python is a subclass of `URLError`. `urlError`
is a non-HTTP `URLError` (connection failure), `sockTimeout` a raw
`socket.timeout`, and `ioError` an `OSError` that is not a `URLError`. -/
inductive HttpOutcome where
  | success (code : Nat) (body : Body) (headers : List (String × String))
  | httpError (code : Nat) (body : Body) (reason : String)
  | urlError (reason : String)
  | sockTimeout
  | ioError (body : Body)

/-- Python exceptions raised by the embedded code. `ValueError`s keep the
data the format string interpolates; `badNonce` is the `IndexError` of line
50; `pyExc` is any unclassified exception (`KeyError`, `TypeError`,
`AttributeError`); `pollTimeout` is the `AssertionError` of line 74;
`cmdErr`/`dnsApiErr` are `IOError`s; `fuelOut` is an artifact of modelling
the two recursions with fuel and is proved unreachable. -/
inductive Err where
  | timeoutErr (msg : String)
  | networkErr (msg : String)
  | acmeErr (errMsg url : String) (data : Option String) (code : Option Nat) (body : Body)
  | badNonce (body : Body)
  | pyExc (msg : String)
  | cmdErr (msg : String)
  | dnsApiErr (msg : String)
  | dnsScriptMissing (path : String)
  | wellknownFail (path url : String)
  | challengeUnavailable (ctype domain : String)
  | challengeFailed (domain : String) (auth : Body)
  | orderFailed (body : Body)
  | pollTimeout
  | fuelOut

/-- which `Err`s are Python `ValueError`s (relevant for the
`except (AssertionError, ValueError)` of line 183). -/
def isValueErr : Err → Bool
  | .timeoutErr _ => true
  | .networkErr _ => true
  | .acmeErr _ _ _ _ _ => true
  | .dnsScriptMissing _ => true
  | .wellknownFail _ _ => true
  | .challengeUnavailable _ _ => true
  | .challengeFailed _ _ => true
  | .orderFailed _ => true
  | _ => false

/-- which `Err`s are Python `AssertionError`s. -/
def isAssertionErr : Err → Bool
  | .pollTimeout => true
  | _ => false

/-- externally visible side effects of a run. -/
inductive Event where
  | httpReq (url : String) (data : Option String)
  | fileWrite (path content : String)
  | fileRemove (path : String)
  | dnsApi (action domain token keyAuth : String)
  | sleepEv (seconds : Nat)
deriving DecidableEq, Repr

/-- run state: a request counter indexing the environment's responses, a
clock in seconds (`time.time()`/`time.sleep`), the event trace, and a ghost
list recording the `Replay-Nonce` header value consumed by each signed
request (used to state the nonce-freshness claims). -/
structure St where
  reqCount : Nat
  clock : Nat
  events : List Event
  sentNonces : List (Option String)
deriving DecidableEq

/-- the external world: `http i url data` is the outcome of the `i`-th
`urlopen` call, `dur i` its duration in seconds; `sign` is the openssl
signing subprocess (error = nonzero exit with stderr); `dnsScriptOk` the
existence/executability check of `dns_api.sh`; `dnsApiRun` the DNS script
(error = nonzero exit); `csrDer` the openssl DER export of the CSR. -/
structure Env where
  http : Nat → String → Option String → HttpOutcome
  dur : Nat → Nat
  sign : String → Except String (List Nat)
  dnsScriptOk : Bool
  dnsApiRun : String → String → String → String → Except String String
  csrDer : Except String (List Nat)

/-- static session data: the environment, the configuration arguments of
`get_crt`, and the closure variables `alg`, `jwk`, `thumbprint`, `domains`
computed by the account-key/CSR parsing of lines 104-129 (external
openssl/regex text processing, modelled as inputs). -/
structure Session where
  env : Env
  timeout : Nat
  alg : String
  jwk : JVal
  directoryUrl : String
  contact : Option (List String)
  challengeType : String
  acmeDir : String
  disableCheck : Bool
  checkPort : Option String
  dnsWait : Nat
  thumbprint : String
  domains : List String

/-- a computation of `get_crt`: state in, either a value with the new state
or an exception together with the state at the raise (Python exceptions do
not roll back side effects). -/
def M (α : Type) : Type := St → Except (Err × St) (α × St)

/-- return. -/
def M.ret {α : Type} (a : α) : M α := fun s => .ok (a, s)

/-- sequencing; an exception short-circuits. -/
def M.bind {α β : Type} (m : M α) (f : α → M β) : M β := fun s =>
  match m s with
  | .error es => .error es
  | .ok (a, s₁) => f a s₁

/-- raise. -/
def M.throw {α : Type} (e : Err) : M α := fun s => .error (e, s)

/-- lift a pure fallible step. -/
def M.liftE {α : Type} : Except Err α → M α
  | .ok a => M.ret a
  | .error e => M.throw e

/-- the `except IndexError` handler of lines 65-68: only the bad-nonce
signal is caught, everything else propagates. -/
def M.catchBadNonce {α : Type} (m : M α) (h : M α) : M α := fun s =>
  match m s with
  | .error (.badNonce _, s₁) => h s₁
  | r => r

/-- record an event. -/
def M.recordEvent (ev : Event) : M Unit := fun s =>
  .ok ((), { s with events := s.events ++ [ev] })

/-- ghost step recording the nonce consumed by a signed request. -/
def M.recordNonce (n : Option String) : M Unit := fun s =>
  .ok ((), { s with sentNonces := s.sentNonces ++ [n] })

/-- state after `time.sleep(n)`. -/
def sleepSt (s : St) (n : Nat) : St :=
  { s with clock := s.clock + n, events := s.events ++ [.sleepEv n] }

/-- model of `time.sleep(n)`. -/
def M.pySleep (n : Nat) : M Unit := fun s => .ok ((), sleepSt s n)

/-- lift the openssl signing call (`_run_external_cmd` with `openssl dgst`,
line 63); a nonzero exit raises `IOError` (lines 23-28). -/
def M.liftSign : Except String (List Nat) → M (List Nat)
  | .ok bs => M.ret bs
  | .error msg => M.throw (.cmdErr ("OpenSSL Error\n" ++ msg))

/-- lift the openssl DER export (line 212). -/
def M.liftCsr : Except String (List Nat) → M (List Nat)
  | .ok bs => M.ret bs
  | .error msg => M.throw (.cmdErr ("DER Export Error\n" ++ msg))

/-- first-match association lookup (JSON objects have unique keys). -/
def jLookup : List (String × JVal) → String → Option JVal
  | [], _ => none
  | (k, v) :: rest, key => if k = key then some v else jLookup rest key

/-- Python `v[key]` for a JSON value: dict lookup, `KeyError` when the key
is missing, `TypeError` when `v` is not a dict. -/
def subscriptJVal (v : JVal) (key : String) : Except Err JVal :=
  match v with
  | .obj kvs =>
      match jLookup kvs key with
      | some x => .ok x
      | none => .error (.pyExc ("KeyError: " ++ key))
  | _ => .error (.pyExc "TypeError: value is not subscriptable by string")

/-- Python `resp_data[key]`: on a raw (unparsed) body the subscript raises
`TypeError: string indices must be integers`. -/
def subscriptBody (b : Body) (key : String) : Except Err JVal :=
  match b with
  | .json v => subscriptJVal v key
  | .raw _ => .error (.pyExc "TypeError: string indices must be integers")

/-- exact-name header lookup. `resp.headers` is an `email` `Message`, whose
lookup is case-insensitive and returns `None` for a missing name (it does
not raise); the program always uses the literal header names
`Replay-Nonce` and `Location`. -/
def headerLookup : List (String × String) → String → Option String
  | [], _ => none
  | (k, v) :: rest, key => if k = key then some v else headerLookup rest key

/-- whether `needle` occurs inside `hay` (Python `in` on strings). -/
def listInfixB (needle : List Char) : List Char → Bool
  | [] => needle.isEmpty
  | c :: rest => needle.isPrefixOf (c :: rest) || listInfixB needle rest

/-- Python `'timed out' in str(reason)`. -/
def hasTimedOut (reason : String) : Bool := listInfixB "timed out".data reason.data

/-- a URL taken from a JSON value; a non-string makes the subsequent
`urlopen`/`Request` raise (modelled slightly early, before the request's
nonce fetch, as an unclassified exception). -/
def jvalToUrl : JVal → Except Err String
  | .str s => .ok s
  | _ => .error (.pyExc "TypeError: invalid url")

/-- a string JSON value where `re.sub` requires one (the challenge token,
line 170). -/
def asPyStr : JVal → Except Err String
  | .str s => .ok s
  | _ => .error (.pyExc "TypeError: expected string or bytes-like object")

/-- Python `str(v)` as used inside format strings; for the non-string corner
(log text and URLs only) the JSON text stands in for `str`. -/
def pyFormatVal : JVal → String
  | .str s => s
  | v => pyDumps v

/-- Python iteration over a JSON value (`for x in v`). -/
def jvalIterate : JVal → Except Err (List JVal)
  | .arr l => .ok l
  | .str s => .ok (s.data.map (fun c => .str (String.mk [c])))
  | .obj kvs => .ok (kvs.map (fun kv => JVal.str kv.1))
  | _ => .error (.pyExc "TypeError: not iterable")

/-- `account.get('contact')` (line 142) requires a dict; any other value
raises `AttributeError`. -/
def bodyGetAttrCheck : Body → Except Err Unit
  | .json (.obj _) => .ok ()
  | _ => .error (.pyExc "AttributeError: no attribute get")

/-- result type of `_do_request`: parsed body, status code (`None` in the
plain-`IOError` branch), headers. -/
def DoResp : Type := Body × Option Nat × List (String × String)

/-- the ACME bad-nonce problem type. -/
def badNonceURN : String := "urn:ietf:params:acme:error:badNonce"

/-- timeout message of lines 37 and 40. -/
def timeoutMsg (errMsg : String) (timeout : Nat) : String :=
  errMsg ++ ": Request timed out after " ++ Nat.repr timeout ++ " seconds"

/-- lines 51-53: any code outside `{200, 201, 204}` raises the structured
`ValueError` carrying `err_msg`, url, data, code and body; otherwise the
triple is returned. -/
def finishResp (url : String) (data : Option String) (errMsg : String)
    (body : Body) (code : Option Nat) (headers : List (String × String)) : M DoResp := fun s =>
  if code = some 200 ∨ code = some 201 ∨ code = some 204 then .ok ((body, code, headers), s)
  else .error (.acmeErr errMsg url data code body, s)

/-- lines 45-53 of `_do_request`: the `json.loads` attempt is already folded
into `Body`; then the bad-nonce classification (guarded by `depth < 100 and
code == 400`, whose `resp_data['type']` subscript can itself raise) and the
success-code check. -/
def classifyResp (url : String) (data : Option String) (errMsg : String) (depth : Nat)
    (body : Body) (code : Option Nat) (headers : List (String × String)) : M DoResp := fun s =>
  if depth < 100 ∧ code = some 400 then
    match subscriptBody body "type" with
    | .error e => .error (e, s)
    | .ok v =>
        if jvalIsStr v badNonceURN then .error (.badNonce body, s)
        else finishResp url data errMsg body code headers s
  else finishResp url data errMsg body code headers s

/-- model of `_do_request` (lines 32-53). The `except` clauses are tried in
source order: `socket.timeout`, then `URLError`, then `IOError`. Because
`HTTPError` is a subclass of `URLError`, an HTTP error response is caught
by the `URLError` clause (its `reason` is the HTTP reason phrase), so it is
re-raised as the timeout or network `ValueError` of lines 39-41 and never
reaches the body-reading `IOError` branch of lines 42-44, nor the
bad-nonce/status classification of lines 49-53. -/
def do_request (S : Session) (url : String) (data : Option String) (errMsg : String)
    (depth : Nat) : M DoResp := fun s =>
  let i := s.reqCount
  let s₁ : St :=
    { s with reqCount := i + 1, clock := s.clock + S.env.dur i,
             events := s.events ++ [.httpReq url data] }
  match S.env.http i url data with
  | .sockTimeout => .error (.timeoutErr (timeoutMsg errMsg S.timeout), s₁)
  | .urlError reason =>
      if hasTimedOut reason then .error (.timeoutErr (timeoutMsg errMsg S.timeout), s₁)
      else .error (.networkErr (errMsg ++ ": Network error: <urlopen error " ++ reason ++ ">"), s₁)
  | .httpError code _body reason =>
      if hasTimedOut reason then .error (.timeoutErr (timeoutMsg errMsg S.timeout), s₁)
      else .error (.networkErr (errMsg ++ ": Network error: HTTP Error " ++
                    Nat.repr code ++ ": " ++ reason), s₁)
  | .ioError body => classifyResp url data errMsg depth body none [] s₁
  | .success code body headers => classifyResp url data errMsg depth body (some code) headers s₁

/-- the JSON value a header value (possibly `None`) becomes in the protected
header. -/
def optStrJVal : Option String → JVal
  | some s => .str s
  | none => .null

/-- model of `_send_signed_request` (lines 56-68), with fuel for the
bad-nonce retry recursion (`get_crt` always starts it at depth 0 with fuel
101, which is proved sufficient below). Each attempt fetches a fresh nonce
from the directory's `newNonce` endpoint, builds the protected header
`{url, alg, nonce}` plus `jwk` (no account yet) or `kid`, signs
`protected64.payload64`, posts, and on the bad-nonce `IndexError` retries
with `depth+1` and the payload unchanged. -/
def send_signed_request (S : Session) (acct : Option (Option String)) (directory : Body)
    (url : String) (payload : Option JVal) (errMsg : String) :
    Nat → Nat → M DoResp
  | 0, _ => M.throw .fuelOut
  | fuel + 1, depth =>
    let payload64 := match payload with
      | none => ""
      | some p => b64_encode_jose (strBytes (pyDumps p))
    M.bind (M.liftE (subscriptBody directory "newNonce")) fun nonceUrlV =>
    M.bind (M.liftE (jvalToUrl nonceUrlV)) fun nonceUrl =>
    M.bind (do_request S nonceUrl none "Error" 0) fun nr =>
    let nonce : Option String := headerLookup nr.2.2 "Replay-Nonce"
    M.bind (M.recordNonce nonce) fun _ =>
    let protectedHdr : JVal := .obj
      ([("url", .str url), ("alg", .str S.alg), ("nonce", optStrJVal nonce)] ++
       (match acct with
        | none => [("jwk", S.jwk)]
        | some loc => [("kid", optStrJVal loc)]))
    let protected64 := b64_encode_jose (strBytes (pyDumps protectedHdr))
    M.bind (M.liftSign (S.env.sign (protected64 ++ "." ++ payload64))) fun out =>
    let dataStr := pyDumps (.obj [("protected", .str protected64), ("payload", .str payload64),
                                  ("signature", .str (b64_encode_jose out))])
    M.catchBadNonce (do_request S url (some dataStr) errMsg depth)
      (send_signed_request S acct directory url payload errMsg fuel (depth + 1))

/-- Python `v in pending_statuses` for the polled `result['status']`. -/
def statusInList (v : JVal) (pending : List String) : Bool :=
  match v with
  | .str s => pending.contains s
  | _ => false

/-- loop of `_poll_until_complete` (lines 71-77). Per iteration: evaluate the
`while` condition (the `result['status']` subscript can raise), assert that
less than 3600 seconds have elapsed since `t0` (else the `AssertionError`
"Polling timeout"), sleep 0 before the first request and 2 otherwise, then
re-fetch. The fuel is an artifact; 1802 is enough because each iteration
past the first advances the clock by at least the 2-second sleep. -/
def poll_aux (S : Session) (acct : Option (Option String)) (directory : Body)
    (url : String) (pending : List String) (errMsg : String) (t0 : Nat) :
    Nat → Option Body → St → Except (Err × St) (Body × St)
  | gas, some b, s =>
      (match subscriptBody b "status" with
       | .error e => .error (e, s)
       | .ok v =>
         if statusInList v pending then
           if 3600 ≤ s.clock - t0 then .error (.pollTimeout, s)
           else match gas with
             | 0 => .error (.fuelOut, s)
             | gas' + 1 =>
               match send_signed_request S acct directory url none errMsg 101 0 (sleepSt s 2) with
               | .error es => .error es
               | .ok ((b2, _, _), s₂) =>
                   poll_aux S acct directory url pending errMsg t0 gas' (some b2) s₂
         else .ok (b, s))
  | gas, none, s =>
      if 3600 ≤ s.clock - t0 then .error (.pollTimeout, s)
      else match gas with
        | 0 => .error (.fuelOut, s)
        | gas' + 1 =>
          match send_signed_request S acct directory url none errMsg 101 0 (sleepSt s 0) with
          | .error es => .error es
          | .ok ((b2, _, _), s₂) =>
              poll_aux S acct directory url pending errMsg t0 gas' (some b2) s₂

/-- model of `_poll_until_complete`: `t0 = time.time()` is read just before
the loop. -/
def poll_until_complete (S : Session) (acct : Option (Option String)) (directory : Body)
    (url : String) (pending : List String) (errMsg : String) : M Body := fun s =>
  poll_aux S acct directory url pending errMsg s.clock 1802 none s

/-- model of `_execute_dns_api` (lines 80-102): the script
existence/executability check raises a `ValueError`; the invocation itself
is recorded as an event, and a nonzero exit raises `IOError`. -/
def execute_dns_api (S : Session) (action domain token keyAuth : String) : M String :=
  if S.env.dnsScriptOk then
    M.bind (M.recordEvent (.dnsApi action domain token keyAuth)) fun _ =>
    match S.env.dnsApiRun action domain token keyAuth with
    | .ok out => M.ret out
    | .error stderr => M.throw (.dnsApiErr ("DNS API failed: " ++ stderr))
  else M.throw (.dnsScriptMissing "dns_api.sh")

/-- the self-check URL of line 181. -/
def wellknownUrl (S : Session) (domain token : String) : String :=
  "http://" ++ domain ++
    (match S.checkPort with | none => "" | some p => ":" ++ p) ++
    "/.well-known/acme-challenge/" ++ token

/-- Python `resp_data == keyauthorization` for the self-check body. -/
def bodyEqStr (b : Body) (t : String) : Bool :=
  match b with
  | .raw s => s == t
  | .json (.str s) => s == t
  | .json _ => false

/-- lines 179-184: the http-01 self-check. `disable_check` short-circuits
the request; a body mismatch is the failed `assert`; `AssertionError` and
`ValueError` (but not the bad-nonce `IndexError` or unclassified
exceptions) are re-raised as the "Wrote file to ..., but couldn't
download ..." `ValueError`. -/
def self_check (S : Session) (domain token keyAuth path : String) : M Unit := fun s =>
  let url := wellknownUrl S domain token
  match (if S.disableCheck then .ok (true, s)
         else match do_request S url none "Error" 0 s with
           | .error es => .error es
           | .ok ((b, _, _), s₁) => .ok (bodyEqStr b keyAuth, s₁) :
         Except (Err × St) (Bool × St)) with
  | .ok (true, s₁) => .ok ((), s₁)
  | .ok (false, s₁) => .error (.wellknownFail path url, s₁)
  | .error (e, s₁) =>
      if isValueErr e || isAssertionErr e then .error (.wellknownFail path url, s₁)
      else .error (e, s₁)

/-- lines 161-165: select the first challenge of the configured type; the
`c['type']` subscript of an ill-formed challenge raises. -/
def findChallenge (ctype : String) : List JVal → Except Err (Option JVal)
  | [] => .ok none
  | c :: rest =>
      match subscriptJVal c "type" with
      | .error e => .error e
      | .ok v => if jvalIsStr v ctype then .ok (some c) else findChallenge ctype rest

/-- lines 195-208: notify the CA (POST `{}` to the challenge URL), poll the
authorization while `pending`, run the per-type cleanup (http-01: remove
the well-known file; dns-01: the DNS API `rm` action), then fail unless the
final status is `valid`. There is no `try/finally`: an exception from the
notification or the polling skips the cleanup. -/
def finish_auth (S : Session) (acct : Option (Option String)) (directory : Body)
    (authUrl domain : String) (challenge : JVal) (token keyAuth wkPath : String) : M Unit :=
  M.bind (M.liftE (subscriptJVal challenge "url")) fun chUrlV =>
  M.bind (M.liftE (jvalToUrl chUrlV)) fun chUrl =>
  M.bind (send_signed_request S acct directory chUrl (some (.obj []))
            ("Error submitting challenges: " ++ domain) 101 0) fun _ =>
  M.bind (poll_until_complete S acct directory authUrl ["pending"]
            ("Error checking challenge status for " ++ domain)) fun auth2 =>
  M.bind (if S.challengeType = "http-01" then M.recordEvent (.fileRemove wkPath)
          else if S.challengeType = "dns-01" then
            M.bind (execute_dns_api S "rm" domain token keyAuth) fun _ => M.ret ()
          else M.ret ()) fun _ =>
  M.bind (M.liftE (subscriptBody auth2 "status")) fun stV =>
  if jvalIsStr stV "valid" then M.ret ()
  else M.throw (.challengeFailed domain auth2)

/-- one iteration of the authorization loop (lines 151-208): fetch the
authorization, skip it when already `valid`, otherwise select the
challenge, derive the sanitized token and key authorization, prepare and
self-check (http-01) or provision DNS and wait (dns-01), then
`finish_auth`. -/
def process_auth (S : Session) (acct : Option (Option String)) (directory : Body)
    (authUrlV : JVal) : M Unit :=
  M.bind (M.liftE (jvalToUrl authUrlV)) fun authUrl =>
  M.bind (send_signed_request S acct directory authUrl none "Error getting challenges" 101 0) fun ar =>
  let authorization := ar.1
  M.bind (M.liftE (subscriptBody authorization "identifier")) fun identV =>
  M.bind (M.liftE (subscriptJVal identV "value")) fun domainV =>
  let domain := pyFormatVal domainV
  M.bind (M.liftE (subscriptBody authorization "status")) fun statusV =>
  if jvalIsStr statusV "valid" then M.ret ()
  else
  M.bind (M.liftE (subscriptBody authorization "challenges")) fun chsV =>
  M.bind (M.liftE (jvalIterate chsV)) fun chs =>
  M.bind (M.liftE (findChallenge S.challengeType chs)) fun chOpt =>
  match chOpt with
  | none => M.throw (.challengeUnavailable S.challengeType domain)
  | some challenge =>
    M.bind (M.liftE (subscriptJVal challenge "token")) fun tokenV =>
    M.bind (M.liftE (asPyStr tokenV)) fun rawToken =>
    let token := sanitizeToken rawToken
    let keyAuth := token ++ "." ++ S.thumbprint
    if S.challengeType = "http-01" then
      let wkPath := osPathJoin S.acmeDir token
      M.bind (M.recordEvent (.fileWrite wkPath keyAuth)) fun _ =>
      M.bind (self_check S domain token keyAuth wkPath) fun _ =>
      finish_auth S acct directory authUrl domain challenge token keyAuth wkPath
    else if S.challengeType = "dns-01" then
      M.bind (execute_dns_api S "add" domain token keyAuth) fun _ =>
      M.bind (M.pySleep S.dnsWait) fun _ =>
      finish_auth S acct directory authUrl domain challenge token keyAuth ""
    else
      finish_auth S acct directory authUrl domain challenge token keyAuth ""

/-- the authorization loop (line 151). -/
def process_auths (S : Session) (acct : Option (Option String)) (directory : Body) :
    List JVal → M Unit
  | [] => M.ret ()
  | a :: rest =>
      M.bind (process_auth S acct directory a) fun _ =>
      process_auths S acct directory rest

/-- model of `get_crt` from line 131 on (the preceding account-key/CSR
parsing is captured by the `Session` fields): fetch the directory, register
the account (the `kid` is the `Location` header), optionally update
contact details, create the order, process every authorization, finalize
with the DER CSR, poll the order, and download the certificate. -/
def get_crt (S : Session) : M Body :=
  M.bind (do_request S S.directoryUrl none "Error getting directory" 0) fun dr =>
  let directory := dr.1
  let regPayload : JVal := .obj
    (("termsOfServiceAgreed", JVal.bool true) ::
     (match S.contact with | none => [] | some cs => [("contact", JVal.arr (cs.map JVal.str))]))
  M.bind (M.liftE (subscriptBody directory "newAccount")) fun naV =>
  M.bind (M.liftE (jvalToUrl naV)) fun naUrl =>
  M.bind (send_signed_request S none directory naUrl (some regPayload) "Error registering" 101 0) fun reg =>
  let acctLoc : Option String := headerLookup reg.2.2 "Location"
  let acct : Option (Option String) := some acctLoc
  M.bind (match S.contact with
          | none => M.ret ()
          | some cs =>
            M.bind (match acctLoc with
                    | some u => M.ret u
                    | none => M.throw (.pyExc "AttributeError: NoneType url")) fun u =>
            M.bind (send_signed_request S acct directory u
                      (some (.obj [("contact", JVal.arr (cs.map JVal.str))]))
                      "Error updating contact details" 101 0) fun cr =>
            M.liftE (bodyGetAttrCheck cr.1)) fun _ =>
  let orderPayload : JVal := .obj
    [("identifiers", JVal.arr (S.domains.map (fun d =>
        JVal.obj [("type", JVal.str "dns"), ("value", JVal.str d)])))]
  M.bind (M.liftE (subscriptBody directory "newOrder")) fun noV =>
  M.bind (M.liftE (jvalToUrl noV)) fun noUrl =>
  M.bind (send_signed_request S acct directory noUrl (some orderPayload)
            "Error creating new order" 101 0) fun onr =>
  let order := onr.1
  let orderHeaders := onr.2.2
  M.bind (M.liftE (subscriptBody order "authorizations")) fun authsV =>
  M.bind (M.liftE (jvalIterate authsV)) fun auths =>
  M.bind (process_auths S acct directory auths) fun _ =>
  M.bind (M.liftCsr S.env.csrDer) fun csrDer =>
  M.bind (M.liftE (subscriptBody order "finalize")) fun finV =>
  M.bind (M.liftE (jvalToUrl finV)) fun finUrl =>
  M.bind (send_signed_request S acct directory finUrl
            (some (.obj [("csr", JVal.str (b64_encode_jose csrDer))]))
            "Error finalizing order" 101 0) fun _ =>
  M.bind (match headerLookup orderHeaders "Location" with
          | some u => M.ret u
          | none => M.throw (.pyExc "AttributeError: NoneType url")) fun ordUrl =>
  M.bind (poll_until_complete S acct directory ordUrl ["pending", "processing"]
            "Error checking order status") fun order2 =>
  M.bind (M.liftE (subscriptBody order2 "status")) fun stV =>
  if jvalIsStr stV "valid" then
    M.bind (M.liftE (subscriptBody order2 "certificate")) fun certV =>
    M.bind (M.liftE (jvalToUrl certV)) fun certUrl =>
    M.bind (send_signed_request S acct directory certUrl none "Certificate download failed" 101 0) fun cr =>
    M.ret cr.1
  else M.throw (.orderFailed order2)

/-- final state of a computation's result (exceptions carry their state). -/
def stOf {α : Type} : Except (Err × St) (α × St) → St
  | .ok (_, s) => s
  | .error (_, s) => s

/-- the computation only appends to the event trace (on success and on
exception alike). -/
def EvExt {α : Type} (m : M α) : Prop :=
  ∀ s, ∃ t, (stOf (m s)).events = s.events ++ t

/-- the environment issues one distinct nonce per call: the `Replay-Nonce`
header of request `i` (whenever the response is a success) is `nv i`, and
no request takes the header-less `IOError` body-read path. -/
def NonceOracle (S : Session) (nv : Nat → String) : Prop :=
  (∀ i url d code body hdrs, S.env.http i url d = .success code body hdrs →
    headerLookup hdrs "Replay-Nonce" = some (nv i)) ∧
  (∀ i url d body, S.env.http i url d ≠ .ioError body)

/-- between two states the ghost list of consumed nonces grew by the
nonces of a strictly increasing list of request indices, all taken from
the window of requests made in between. -/
def NState (nv : Nat → String) (s s' : St) : Prop :=
  s.reqCount ≤ s'.reqCount ∧
  ∃ ixs : List Nat, ixs.Pairwise (· < ·) ∧
    (∀ i ∈ ixs, s.reqCount ≤ i ∧ i < s'.reqCount) ∧
    s'.sentNonces = s.sentNonces ++ ixs.map (fun i => some (nv i))

/-- the computation only consumes nonces of pairwise distinct request
indices (on success and on exception alike). -/
def NExt (nv : Nat → String) {α : Type} (m : M α) : Prop :=
  ∀ s, NState nv s (stOf (m s))

/-! ### concrete CA doubles used by witnesses and counterexamples -/

/-- nonce endpoint URL of the concrete doubles. -/
def fxNonceU : String := "https://ca/nonce"

/-- authorization URL of the concrete doubles. -/
def fxAuthU : String := "https://ca/authz"

/-- challenge URL of the concrete doubles. -/
def fxChalU : String := "https://ca/chal"

/-- directory body of the concrete doubles. -/
def fxDir : Body := .json (.obj [("newNonce", .str fxNonceU)])

/-- nonce response headers of the concrete doubles. -/
def fxNHdrs : List (String × String) := [("Replay-Nonce", "n0")]

/-- initial state. -/
def fxSt : St := ⟨0, 0, [], []⟩

/-- session over a given environment: http-01, self-check enabled, no
contact. -/
def fxSession (e : Env) : Session :=
  { env := e, timeout := 30, alg := "RS256", jwk := .obj [("kty", .str "RSA")],
    directoryUrl := "https://ca/dir", contact := none, challengeType := "http-01",
    acmeDir := "/acme", disableCheck := false, checkPort := none, dnsWait := 30,
    thumbprint := "T", domains := ["example.com"] }

/-- an already-valid authorization object. -/
def c8AuthJ : JVal :=
  .obj [("identifier", .obj [("value", .str "example.com")]), ("status", .str "valid")]

/-- CA double whose authorization is already valid. -/
def c8Env : Env :=
  { http := fun _ url _ =>
      if url = fxNonceU then .success 204 (.raw "") fxNHdrs
      else if url = fxAuthU then .success 200 (.json c8AuthJ) []
      else .urlError "unreachable",
    dur := fun _ => 0, sign := fun _ => .ok [1], dnsScriptOk := true,
    dnsApiRun := fun _ _ _ _ => .ok "", csrDer := .ok [2] }

/-- a pending authorization offering a single challenge of the given type. -/
def authPendingJ (dom tok chUrl ctype : String) : JVal :=
  .obj [("identifier", .obj [("value", .str dom)]), ("status", .str "pending"),
        ("challenges", .arr [.obj [("type", .str ctype), ("token", .str tok),
                                   ("url", .str chUrl)]])]

/-- self-check URL of the concrete http-01 doubles (`example.com`, token
`tok`, no port). -/
def fxWkU : String := "http://example.com/.well-known/acme-challenge/tok"

/-- CA double for the http-01 self-check mismatch: pending authorization,
http-01 challenge available, and the well-known URL serves a wrong body. -/
def c4Env : Env :=
  { http := fun _ url _ =>
      if url = fxNonceU then .success 204 (.raw "") fxNHdrs
      else if url = fxAuthU then
        .success 200 (.json (authPendingJ "example.com" "tok" fxChalU "http-01")) []
      else if url = fxWkU then .success 200 (.raw "WRONG") []
      else .urlError "unreachable",
    dur := fun _ => 0, sign := fun _ => .ok [1], dnsScriptOk := true,
    dnsApiRun := fun _ _ _ _ => .ok "", csrDer := .ok [2] }

/-- the parsed body of an HTTP 400 bad-nonce rejection. -/
def badNonceBody : Body := .json (.obj [("type", .str badNonceURN)])

/-- CA double that rejects every signed POST with HTTP 400 badNonce (the
nonce endpoint itself works). -/
def c1Env : Env :=
  { http := fun _ url _ =>
      if url = fxNonceU then .success 204 (.raw "") fxNHdrs
      else .httpError 400 badNonceBody "Bad Request",
    dur := fun _ => 0, sign := fun _ => .ok [1], dnsScriptOk := true,
    dnsApiRun := fun _ _ _ _ => .ok "", csrDer := .ok [2] }

/-- whether a `_do_request` outcome is the bad-nonce retry signal or the
structured HTTP-classified `ValueError` of lines 49-52. -/
def isRetryOrHTTPClassified (r : Except (Err × St) (DoResp × St)) : Bool :=
  match r with
  | .error (.badNonce _, _) => true
  | .error (.acmeErr _ _ _ _ _, _) => true
  | _ => false

/-- CA double answering every request with HTTP 400 and an unparseable
body. -/
def c9Env : Env :=
  { http := fun _ _ _ => .httpError 400 (.raw "oops") "Bad Request",
    dur := fun _ => 0, sign := fun _ => .ok [1], dnsScriptOk := true,
    dnsApiRun := fun _ _ _ _ => .ok "", csrDer := .ok [2] }

/-- poll target URL of the concrete doubles. -/
def fxPollU : String := "https://ca/poll"

/-- a forever-pending status body. -/
def pendingJ : JVal := .obj [("status", .str "pending")]

/-- CA double that answers every poll with `status: pending`, forever. -/
def c2Env : Env :=
  { http := fun _ url _ =>
      if url = fxNonceU then .success 204 (.raw "") fxNHdrs
      else if url = fxPollU then .success 200 (.json pendingJ) []
      else .urlError "unreachable",
    dur := fun _ => 0, sign := fun _ => .ok [1], dnsScriptOk := true,
    dnsApiRun := fun _ _ _ _ => .ok "", csrDer := .ok [2] }

/-- whether an exception is the `ChallengeFailedError` of line 207. -/
def isCF : Err → Bool
  | .challengeFailed _ _ => true
  | _ => false

/-- CA double for the missing-cleanup counterexample: the http-01 self-check
succeeds, but the challenge-notification POST is answered with HTTP 500. -/
def c3Env : Env :=
  { http := fun _ url _ =>
      if url = fxNonceU then .success 204 (.raw "") fxNHdrs
      else if url = fxAuthU then
        .success 200 (.json (authPendingJ "example.com" "tok" fxChalU "http-01")) []
      else if url = fxWkU then .success 200 (.raw "tok.T") []
      else if url = fxChalU then .httpError 500 (.raw "") "Internal Server Error"
      else .urlError "unreachable",
    dur := fun _ => 0, sign := fun _ => .ok [1], dnsScriptOk := true,
    dnsApiRun := fun _ _ _ _ => .ok "", csrDer := .ok [2] }

/-- an authorization object whose status is `invalid`. -/
def invalidAuthJ : JVal := .obj [("status", .str "invalid")]

/-- CA double whose validation fails: the self-check passes and the CA
accepts the notification, but polling reports the authorization `invalid`
(requests with index ≥ 2 to the authorization URL see the final status). -/
def c3bEnv : Env :=
  { http := fun i url _ =>
      if url = fxNonceU then .success 204 (.raw "") fxNHdrs
      else if url = fxAuthU then
        (if i ≤ 1 then .success 200 (.json (authPendingJ "example.com" "tok" fxChalU "http-01")) []
         else .success 200 (.json invalidAuthJ) [])
      else if url = fxWkU then .success 200 (.raw "tok.T") []
      else if url = fxChalU then .success 200 (.json (.obj [])) []
      else .urlError "unreachable",
    dur := fun _ => 0, sign := fun _ => .ok [1], dnsScriptOk := true,
    dnsApiRun := fun _ _ _ _ => .ok "", csrDer := .ok [2] }

/-- the distinct nonce issued for request `i` by the happy-path double:
`i` repetitions of `a`. -/
def nvH (i : Nat) : String := String.mk (List.replicate i 'a')

/-- happy-path CA double for a full successful issuance: every response is
a success carrying the distinct `Replay-Nonce` of its request index, the
single authorization is already valid, and the order turns valid on the
first poll. -/
def happyEnv : Env :=
  { http := fun i url _ =>
      if url = "https://ca/dir" then
        .success 200 (.json (.obj [("newNonce", .str fxNonceU),
          ("newAccount", .str "https://ca/acct"),
          ("newOrder", .str "https://ca/neworder")])) [("Replay-Nonce", nvH i)]
      else if url = fxNonceU then .success 204 (.raw "") [("Replay-Nonce", nvH i)]
      else if url = "https://ca/acct" then
        .success 201 (.json (.obj [])) [("Replay-Nonce", nvH i)]
      else if url = "https://ca/neworder" then
        .success 201 (.json (.obj [("authorizations", .arr [.str fxAuthU]),
          ("finalize", .str "https://ca/finalize")]))
          [("Replay-Nonce", nvH i), ("Location", "https://ca/order/1")]
      else if url = fxAuthU then
        .success 200 (.json (.obj [("identifier", .obj [("value", .str "example.com")]),
          ("status", .str "valid")])) [("Replay-Nonce", nvH i)]
      else if url = "https://ca/finalize" then
        .success 200 (.json (.obj [])) [("Replay-Nonce", nvH i)]
      else if url = "https://ca/order/1" then
        .success 200 (.json (.obj [("status", .str "valid"),
          ("certificate", .str "https://ca/cert")])) [("Replay-Nonce", nvH i)]
      else if url = "https://ca/cert" then .success 200 (.raw "PEM") [("Replay-Nonce", nvH i)]
      else .urlError "unreachable",
    dur := fun _ => 0, sign := fun _ => .ok [1], dnsScriptOk := true,
    dnsApiRun := fun _ _ _ _ => .ok "", csrDer := .ok [2] }

/-- the directory body served by the happy-path double. -/
def happyDirB : Body := .json (.obj [("newNonce", .str fxNonceU),
  ("newAccount", .str "https://ca/acct"), ("newOrder", .str "https://ca/neworder")])

/-- intermediate states of the happy-path run, one per top-level step. -/
def happyS1 : St :=
  stOf (do_request (fxSession happyEnv) "https://ca/dir" none "Error getting directory" 0 fxSt)

def happyS2 : St :=
  stOf (send_signed_request (fxSession happyEnv) none happyDirB "https://ca/acct"
    (some (.obj [("termsOfServiceAgreed", .bool true)])) "Error registering" 101 0 happyS1)

def happyS3 : St :=
  stOf (send_signed_request (fxSession happyEnv) (some none) happyDirB "https://ca/neworder"
    (some (.obj [("identifiers", .arr [.obj [("type", .str "dns"),
      ("value", .str "example.com")]])])) "Error creating new order" 101 0 happyS2)

def happyS4 : St :=
  stOf (process_auths (fxSession happyEnv) (some none) happyDirB [.str fxAuthU] happyS3)

def happyS5 : St :=
  stOf (send_signed_request (fxSession happyEnv) (some none) happyDirB "https://ca/finalize"
    (some (.obj [("csr", .str (b64_encode_jose [2]))])) "Error finalizing order" 101 0 happyS4)

def happyS6 : St :=
  stOf (send_signed_request (fxSession happyEnv) (some none) happyDirB "https://ca/order/1"
    none "Error checking order status" 101 0 (sleepSt happyS5 0))

def happyS7 : St :=
  stOf (send_signed_request (fxSession happyEnv) (some none) happyDirB "https://ca/cert"
    none "Certificate download failed" 101 0 happyS6)

/-! ### string helper lemmas -/

theorem data_mk (l : List Char) : (String.mk l).data = l := rfl

theorem mk_append (l₁ l₂ : List Char) : String.mk l₁ ++ String.mk l₂ = String.mk (l₁ ++ l₂) := rfl

theorem string_data_eq {s t : String} (h : s.data = t.data) : s = t := by
  cases s; cases t; exact congrArg String.mk h

theorem sanitize_allowed (t : String) :
    ∀ c ∈ (sanitizeToken t).data, isAllowedTokenChar c = true := by
  intro c hc
  rw [sanitizeToken, data_mk] at hc
  obtain ⟨a, _, ha⟩ := List.mem_map.mp hc
  by_cases h : isAllowedTokenChar a = true
  · rw [if_pos h] at ha; rw [← ha]; exact h
  · rw [if_neg h] at ha; rw [← ha]; decide

theorem sanitize_no_slash (t : String) : '/' ∉ (sanitizeToken t).data := by
  intro hmem
  have := sanitize_allowed t '/' hmem
  simp [isAllowedTokenChar] at this

theorem sanitize_not_dot (t : String) : sanitizeToken t ≠ "." := by
  intro h
  have hmem : '.' ∈ (sanitizeToken t).data := by rw [h]; decide
  have := sanitize_allowed t '.' hmem
  simp [isAllowedTokenChar] at this

theorem sanitize_not_dotdot (t : String) : sanitizeToken t ≠ ".." := by
  intro h
  have hmem : '.' ∈ (sanitizeToken t).data := by rw [h]; decide
  have := sanitize_allowed t '.' hmem
  simp [isAllowedTokenChar] at this

theorem sanitize_not_abs (t : String) : startsWithSlash (sanitizeToken t) = false := by
  rw [startsWithSlash]
  cases hd : (sanitizeToken t).data with
  | nil => rfl
  | cons c rest =>
    have hc : c ∈ (sanitizeToken t).data := by rw [hd]; exact List.mem_cons_self c rest
    have := sanitize_allowed t c hc
    simp only [decide_eq_false_iff_not]
    intro hslash
    rw [hslash] at this
    simp [isAllowedTokenChar] at this

/-- C10: the http-01 challenge file path is the join of the acme directory
with the sanitized token; the sanitized token only contains `[A-Za-z0-9_-]`,
hence no path separator and no `.`/`..` segment, so for every CA-supplied
token the file lives directly inside the configured directory. -/
theorem c10_sanitized_token_path_safety (acmeDir t : String) :
    (∀ c ∈ (sanitizeToken t).data, isAllowedTokenChar c = true) ∧
    '/' ∉ (sanitizeToken t).data ∧
    sanitizeToken t ≠ "." ∧
    sanitizeToken t ≠ ".." ∧
    osPathJoin acmeDir (sanitizeToken t) =
      if acmeDir = "" ∨ endsWithSlash acmeDir = true then acmeDir ++ sanitizeToken t
      else acmeDir ++ "/" ++ sanitizeToken t := by
  refine ⟨sanitize_allowed t, sanitize_no_slash t, sanitize_not_dot t, sanitize_not_dotdot t, ?_⟩
  rw [osPathJoin, sanitize_not_abs t]
  simp only [Bool.false_eq_true, if_false]
  by_cases h1 : acmeDir = ""
  · simp [h1]
  · by_cases h2 : endsWithSlash acmeDir = true
    · simp [h1, h2]
    · simp [h1, h2]

/-! ### lemmas on the hex/byte encodings of the JWK (towards C7) -/

theorem bytesToNat_acc (bs : List Nat) :
    ∀ acc, bs.foldl (fun a b => 256 * a + b) acc = acc * 256 ^ bs.length + bytesToNat bs := by
  induction bs with
  | nil => intro acc; simp [bytesToNat]
  | cons b bs ih =>
    intro acc
    have hb : bytesToNat (b :: bs) = b * 256 ^ bs.length + bytesToNat bs := by
      show (b :: bs).foldl (fun a b => 256 * a + b) 0 = _
      rw [List.foldl_cons, ih]
      ring_nf
    rw [List.foldl_cons, ih, hb]
    simp only [List.length_cons, pow_succ]
    ring

theorem bytesToNat_cons (b : Nat) (bs : List Nat) :
    bytesToNat (b :: bs) = b * 256 ^ bs.length + bytesToNat bs := by
  show (b :: bs).foldl (fun a b => 256 * a + b) 0 = _
  rw [List.foldl_cons, bytesToNat_acc]
  ring_nf

theorem hexDigitsToNat_acc (ds : List Nat) :
    ∀ acc, ds.foldl (fun a d => 16 * a + d) acc = acc * 16 ^ ds.length + hexDigitsToNat ds := by
  induction ds with
  | nil => intro acc; simp [hexDigitsToNat]
  | cons d ds ih =>
    intro acc
    have hd : hexDigitsToNat (d :: ds) = d * 16 ^ ds.length + hexDigitsToNat ds := by
      show (d :: ds).foldl (fun a d => 16 * a + d) 0 = _
      rw [List.foldl_cons, ih]
      ring_nf
    rw [List.foldl_cons, ih, hd]
    simp only [List.length_cons, pow_succ]
    ring

theorem hexDigitsToNat_cons (d : Nat) (ds : List Nat) :
    hexDigitsToNat (d :: ds) = d * 16 ^ ds.length + hexDigitsToNat ds := by
  show (d :: ds).foldl (fun a d => 16 * a + d) 0 = _
  rw [List.foldl_cons, hexDigitsToNat_acc]
  ring_nf

theorem hexDigitsToNat_append_digit (ds : List Nat) (d : Nat) :
    hexDigitsToNat (ds ++ [d]) = 16 * hexDigitsToNat ds + d := by
  show (ds ++ [d]).foldl (fun a d => 16 * a + d) 0 = _
  rw [List.foldl_append]
  rfl

theorem natHexDigits_value (n : Nat) : hexDigitsToNat (natHexDigits n) = n := by
  induction n using Nat.strong_induction_on with
  | _ n ih =>
    rw [natHexDigits]
    split
    · simp [hexDigitsToNat]
    · rename_i h
      have hlt : n / 16 < n := Nat.div_lt_self (by omega) (by norm_num)
      rw [hexDigitsToNat_append_digit, ih (n / 16) hlt]
      omega

theorem natHexDigits_ne_nil (n : Nat) : natHexDigits n ≠ [] := by
  rw [natHexDigits]
  split <;> simp

theorem natHexDigits_head_pos (n : Nat) (hn : 0 < n) :
    ∀ d, (natHexDigits n).head? = some d → 0 < d := by
  induction n using Nat.strong_induction_on with
  | _ n ih =>
    intro d hd
    rw [natHexDigits] at hd
    split at hd
    · simp at hd; omega
    · rename_i h
      rcases hrec : natHexDigits (n / 16) with _ | ⟨a, rest⟩
      · exact absurd hrec (natHexDigits_ne_nil _)
      · rw [hrec] at hd
        simp at hd
        have hlt : n / 16 < n := Nat.div_lt_self (by omega) (by norm_num)
        have hpos : 0 < n / 16 := Nat.div_pos (by omega) (by norm_num)
        have := ih (n / 16) hlt hpos a (by rw [hrec]; rfl)
        omega

theorem hexPairsToBytes_length (ds : List Nat) :
    (hexPairsToBytes ds).length = ds.length / 2 := by
  induction ds using hexPairsToBytes.induct with
  | case1 d1 d2 rest ih =>
    rw [hexPairsToBytes]
    simp only [List.length_cons, ih]
    omega
  | case2 ds h =>
    rcases ds with _ | ⟨d, ds'⟩
    · rfl
    · rcases ds' with _ | ⟨d2, rest⟩
      · simp [hexPairsToBytes]
      · exact absurd rfl (h d d2 rest)

theorem hexPairsToBytes_value (ds : List Nat) (h : ds.length % 2 = 0) :
    bytesToNat (hexPairsToBytes ds) = hexDigitsToNat ds := by
  induction ds using hexPairsToBytes.induct with
  | case1 d1 d2 rest ih =>
    rw [hexPairsToBytes, bytesToNat_cons, hexPairsToBytes_length,
        hexDigitsToNat_cons, hexDigitsToNat_cons]
    have hrest : rest.length % 2 = 0 := by simp at h; omega
    rw [ih hrest]
    have h2 : 2 * (rest.length / 2) = rest.length := by omega
    have : (256 : Nat) ^ (rest.length / 2) = 16 ^ rest.length := by
      calc (256 : Nat) ^ (rest.length / 2) = (16 ^ 2) ^ (rest.length / 2) := by norm_num
        _ = 16 ^ (2 * (rest.length / 2)) := by rw [← pow_mul]
        _ = 16 ^ rest.length := by rw [h2]
    rw [this, List.length_cons]
    ring_nf
  | case2 ds hne =>
    rcases ds with _ | ⟨d, ds'⟩
    · rfl
    · rcases ds' with _ | ⟨d2, rest⟩
      · simp at h
      · exact absurd rfl (hne d d2 rest)

theorem padEvenHex_even (ds : List Nat) : (padEvenHex ds).length % 2 = 0 := by
  rw [padEvenHex]
  split
  · rename_i h; simp only [List.length_cons]; omega
  · rename_i h; omega

theorem padEvenHex_value (ds : List Nat) :
    hexDigitsToNat (padEvenHex ds) = hexDigitsToNat ds := by
  rw [padEvenHex]
  split
  · rw [hexDigitsToNat_cons]; ring_nf
  · rfl

theorem pubExpBytes_value (e : Nat) : bytesToNat (pubExpBytes e) = e := by
  rw [pubExpBytes, hexPairsToBytes_value _ (padEvenHex_even _), padEvenHex_value,
      natHexDigits_value]

theorem pubExpBytes_minimal (e : Nat) (he : 0 < e) :
    ∀ b, (pubExpBytes e).head? = some b → 0 < b := by
  intro b hb
  rw [pubExpBytes, padEvenHex] at hb
  rcases hds : natHexDigits e with _ | ⟨d0, rest⟩
  · exact absurd hds (natHexDigits_ne_nil _)
  · have hd0 : 0 < d0 := natHexDigits_head_pos e he d0 (by rw [hds]; rfl)
    rw [hds] at hb
    split at hb
    · rw [hexPairsToBytes] at hb
      simp at hb
      omega
    · rename_i hlen
      rcases rest with _ | ⟨d1, rest'⟩
      · simp at hlen
      · rw [hexPairsToBytes] at hb
        simp at hb
        omega

/-! ### lemmas on the canonical JWK JSON (towards C7) -/

theorem b64Char_mem (n : Nat) : b64Char n ∈ b64urlAlphabet := by
  rw [b64Char, List.getD]
  rcases hg : b64urlAlphabet.get? n with _ | c
  · simp [hg]; decide
  · simp [hg]
    exact List.get?_mem hg

theorem b64_chars_in_alphabet (bs : List Nat) :
    ∀ c ∈ (b64_encode_jose bs).data, c ∈ b64urlAlphabet := by
  induction bs using b64_encode_jose.induct with
  | case1 => intro c hc; simp [b64_encode_jose] at hc
  | case2 a =>
    intro c hc
    rw [b64_encode_jose, data_mk] at hc
    simp only [List.mem_cons, List.not_mem_nil, or_false] at hc
    rcases hc with h | h <;> (rw [h]; exact b64Char_mem _)
  | case3 a b =>
    intro c hc
    rw [b64_encode_jose, data_mk] at hc
    simp only [List.mem_cons, List.not_mem_nil, or_false] at hc
    rcases hc with h | h | h <;> (rw [h]; exact b64Char_mem _)
  | case4 a b cc rest ih =>
    intro c hc
    rw [b64_encode_jose] at hc
    rw [String.data_append, data_mk] at hc
    rcases List.mem_append.mp hc with h | h
    · simp only [List.mem_cons, List.not_mem_nil, or_false] at h
      rcases h with h | h | h | h <;> (rw [h]; exact b64Char_mem _)
    · exact ih c h

theorem escString_id (l : List Char) (h : ∀ c ∈ l, c ∈ b64urlAlphabet) :
    escString l = String.mk l := by
  induction l with
  | nil => rfl
  | cons c rest ih =>
    rw [escString]
    have hesc : ∀ c ∈ b64urlAlphabet, jsonEscapeChar c = String.mk [c] := by decide
    rw [hesc c (h c (List.mem_cons_self c rest)),
        ih (fun x hx => h x (List.mem_cons_of_mem c hx)), mk_append]
    rfl

theorem jsonQuote_b64 (bs : List Nat) :
    jsonQuote (b64_encode_jose bs) = "\"" ++ b64_encode_jose bs ++ "\"" := by
  rw [jsonQuote, escString_id _ (b64_chars_in_alphabet bs)]

theorem sortByKey_jwk (x y z : String) :
    sortByKey [("e", x), ("kty", y), ("n", z)] = [("e", x), ("kty", y), ("n", z)] := rfl

/-- C7: for a fixed RSA public key (modulus hex text and decimal exponent),
the JWK `e` member is the base64url of the minimal even-length big-endian
hex byte string of the exponent (value round-trips, no leading zero byte,
even hex length), the `n` member comes from the hex text with
whitespace/colons stripped, the canonical JSON of the JWK has the keys in
sorted order `e`, `kty`, `n` with compact separators, and the thumbprint is
deterministically the base64url of the SHA-256 of exactly that string. -/
theorem c7_jwk_thumbprint (pubHex : String) (e : Nat) (he : 0 < e) :
    bytesToNat (pubExpBytes e) = e ∧
    (∀ b, (pubExpBytes e).head? = some b → 0 < b) ∧
    (padEvenHex (natHexDigits e)).length % 2 = 0 ∧
    accountKeyJson pubHex e =
      "\x7b" ++ "\"e\"" ++ ":" ++ "\"" ++ b64_encode_jose (pubExpBytes e) ++ "\"" ++ "," ++
      "\"kty\"" ++ ":" ++ "\"RSA\"" ++ "," ++
      "\"n\"" ++ ":" ++ "\"" ++ b64_encode_jose (modulusBytes pubHex) ++ "\"" ++ "\x7d" ∧
    accountThumbprint pubHex e =
      b64_encode_jose (sha256 (strBytes
        ("\x7b" ++ "\"e\"" ++ ":" ++ "\"" ++ b64_encode_jose (pubExpBytes e) ++ "\"" ++ "," ++
         "\"kty\"" ++ ":" ++ "\"RSA\"" ++ "," ++
         "\"n\"" ++ ":" ++ "\"" ++ b64_encode_jose (modulusBytes pubHex) ++ "\"" ++ "\x7d"))) := by
  have hjson : accountKeyJson pubHex e =
      "\x7b" ++ "\"e\"" ++ ":" ++ "\"" ++ b64_encode_jose (pubExpBytes e) ++ "\"" ++ "," ++
      "\"kty\"" ++ ":" ++ "\"RSA\"" ++ "," ++
      "\"n\"" ++ ":" ++ "\"" ++ b64_encode_jose (modulusBytes pubHex) ++ "\"" ++ "\x7d" := by
    rw [accountKeyJson, jwkPairs, pyDumpsSortedCompact, sortByKey_jwk, compactItems,
        compactItems, compactItems, jsonQuote_b64, jsonQuote_b64]
    have h1 : jsonQuote "e" = "\"e\"" := rfl
    have h2 : jsonQuote "kty" = "\"kty\"" := rfl
    have h3 : jsonQuote "n" = "\"n\"" := rfl
    have h4 : jsonQuote "RSA" = "\"RSA\"" := rfl
    rw [h1, h2, h3, h4]
    simp only [String.append_assoc]
  refine ⟨pubExpBytes_value e, pubExpBytes_minimal e he, padEvenHex_even _, hjson, ?_⟩
  rw [accountThumbprint, hjson]

/-- C7 witness: the hypotheses at a concrete key. -/
theorem c7_jwk_thumbprint_witness :
    0 < 65537 ∧
    (bytesToNat (pubExpBytes 65537) = 65537 ∧
     (∀ b, (pubExpBytes 65537).head? = some b → 0 < b) ∧
     (padEvenHex (natHexDigits 65537)).length % 2 = 0 ∧
     accountKeyJson "aa:bb" 65537 =
       "\x7b" ++ "\"e\"" ++ ":" ++ "\"" ++ b64_encode_jose (pubExpBytes 65537) ++ "\"" ++ "," ++
       "\"kty\"" ++ ":" ++ "\"RSA\"" ++ "," ++
       "\"n\"" ++ ":" ++ "\"" ++ b64_encode_jose (modulusBytes "aa:bb") ++ "\"" ++ "\x7d" ∧
     accountThumbprint "aa:bb" 65537 =
       b64_encode_jose (sha256 (strBytes
         ("\x7b" ++ "\"e\"" ++ ":" ++ "\"" ++ b64_encode_jose (pubExpBytes 65537) ++ "\"" ++ "," ++
          "\"kty\"" ++ ":" ++ "\"RSA\"" ++ "," ++
          "\"n\"" ++ ":" ++ "\"" ++ b64_encode_jose (modulusBytes "aa:bb") ++ "\"" ++ "\x7d")))) :=
  ⟨by norm_num, c7_jwk_thumbprint "aa:bb" 65537 (by norm_num)⟩

theorem sanitize_id (t : String) (h : ∀ c ∈ t.data, isAllowedTokenChar c = true) :
    sanitizeToken t = t := by
  apply string_data_eq
  rw [sanitizeToken, data_mk]
  have : ∀ c ∈ t.data, (if isAllowedTokenChar c then c else '_') = c := by
    intro c hc
    rw [if_pos (h c hc)]
  rw [List.map_congr_left this]
  exact List.map_id t.data

/-! ### running `send_signed_request` against a pinned CA double -/

theorem send_ok (S : Session) (acct : Option (Option String)) (dirB : Body) (nUrl : String)
    (url : String) (payload : Option JVal) (errMsg : String)
    (nBody : Body) (nHdrs : List (String × String)) (sig : List Nat)
    (code : Nat) (body : Body) (hdrs : List (String × String))
    (hdir : subscriptBody dirB "newNonce" = .ok (.str nUrl))
    (hn : ∀ i d, S.env.http i nUrl d = .success 204 nBody nHdrs)
    (hr : ∀ i d, S.env.http i url (some d) = .success code body hdrs)
    (hcode : code = 200 ∨ code = 201 ∨ code = 204)
    (hsign : ∀ x, S.env.sign x = .ok sig)
    (fuel depth : Nat) (s : St) :
    ∃ D, send_signed_request S acct dirB url payload errMsg (fuel + 1) depth s =
      .ok ((body, some code, hdrs),
        { reqCount := s.reqCount + 2,
          clock := s.clock + S.env.dur s.reqCount + S.env.dur (s.reqCount + 1),
          events := s.events ++ [.httpReq nUrl none, .httpReq url (some D)],
          sentNonces := s.sentNonces ++ [headerLookup nHdrs "Replay-Nonce"] }) := by
  rcases hcode with h | h | h <;> subst h <;>
    simp [send_signed_request, M.bind, M.liftE, M.ret, M.throw, M.recordNonce, M.liftSign,
          M.catchBadNonce, do_request, classifyResp, finishResp, hdir, hn, hr, hsign,
          jvalToUrl, List.append_assoc]

/-- C8: an authorization whose fetched status is already `valid` is skipped
entirely: the per-authorization step succeeds and its trace consists of
exactly the nonce fetch and the authorization fetch — no challenge is
selected, nothing is prepared, and no challenge-notification POST is made
for that domain. -/
theorem c8_valid_authorization_skipped
    (S : Session) (acct : Option (Option String)) (dirB : Body) (nUrl authUrl : String)
    (authJ identV domV : JVal) (nBody : Body)
    (nHdrs aHdrs : List (String × String)) (sig : List Nat)
    (hdir : subscriptBody dirB "newNonce" = .ok (.str nUrl))
    (hn : ∀ i d, S.env.http i nUrl d = .success 204 nBody nHdrs)
    (ha : ∀ i d, S.env.http i authUrl (some d) = .success 200 (.json authJ) aHdrs)
    (hsign : ∀ x, S.env.sign x = .ok sig)
    (hident : subscriptJVal authJ "identifier" = .ok identV)
    (hval : subscriptJVal identV "value" = .ok domV)
    (hstatus : subscriptJVal authJ "status" = .ok (.str "valid"))
    (s : St) :
    ∃ D, process_auth S acct dirB (.str authUrl) s =
      .ok ((), { reqCount := s.reqCount + 2,
                 clock := s.clock + S.env.dur s.reqCount + S.env.dur (s.reqCount + 1),
                 events := s.events ++ [.httpReq nUrl none, .httpReq authUrl (some D)],
                 sentNonces := s.sentNonces ++ [headerLookup nHdrs "Replay-Nonce"] }) := by
  obtain ⟨D, hsend⟩ := send_ok S acct dirB nUrl authUrl none "Error getting challenges"
    nBody nHdrs sig 200 (.json authJ) aHdrs hdir hn ha (Or.inl rfl) hsign 100 0 s
  refine ⟨D, ?_⟩
  simp [process_auth, M.bind, M.liftE, M.ret, jvalToUrl, hsend, subscriptBody,
        hident, hval, hstatus, jvalIsStr]

/-- C8 witness: the hypotheses and the conclusion at the concrete CA double
`c8Env`. -/
theorem c8_valid_authorization_skipped_witness :
    (∀ i d, (fxSession c8Env).env.http i fxNonceU d = .success 204 (.raw "") fxNHdrs) ∧
    (∀ i d, (fxSession c8Env).env.http i fxAuthU (some d) = .success 200 (.json c8AuthJ) []) ∧
    (∀ x, (fxSession c8Env).env.sign x = .ok [1]) ∧
    (∃ D, process_auth (fxSession c8Env) (some (some "https://ca/acct/1")) fxDir
        (.str fxAuthU) fxSt =
      .ok ((), { reqCount := 2, clock := 0,
                 events := [.httpReq fxNonceU none, .httpReq fxAuthU (some D)],
                 sentNonces := [some "n0"] })) :=
  ⟨fun _ _ => rfl, fun _ _ => rfl, fun _ => rfl,
   c8_valid_authorization_skipped (fxSession c8Env) (some (some "https://ca/acct/1")) fxDir
     fxNonceU fxAuthU c8AuthJ (.obj [("value", .str "example.com")]) (.str "example.com")
     (.raw "") fxNHdrs [] [1] rfl (fun _ _ => rfl) (fun _ _ => rfl) (fun _ => rfl)
     rfl rfl rfl fxSt⟩

/-- C4: with the http-01 self-check enabled, if the GET of
`http://<domain>/.well-known/acme-challenge/<token>` returns a body
different from the key authorization (or fails at the HTTP level), the
per-authorization step aborts with the line-184 `ValueError`
(`ChallengeSetupError`) whose trace ends at the self-check GET: the CA is
never notified — no POST to the challenge URL is ever made. -/
theorem c4_selfcheck_failure_aborts_before_notify
    (S : Session) (acct : Option (Option String)) (dirB : Body)
    (nUrl authUrl dom tok chUrl bdy : String)
    (nBody : Body) (nHdrs aHdrs wHdrs : List (String × String)) (sig : List Nat)
    (hct : S.challengeType = "http-01")
    (hdc : S.disableCheck = false)
    (hdir : subscriptBody dirB "newNonce" = .ok (.str nUrl))
    (hn : ∀ i d, S.env.http i nUrl d = .success 204 nBody nHdrs)
    (ha : ∀ i d, S.env.http i authUrl (some d) =
            .success 200 (.json (authPendingJ dom tok chUrl "http-01")) aHdrs)
    (hsign : ∀ x, S.env.sign x = .ok sig)
    (hwk : ((∀ i, S.env.http i (wellknownUrl S dom (sanitizeToken tok)) none =
              .success 200 (.raw bdy) wHdrs) ∧
            bdy ≠ sanitizeToken tok ++ "." ++ S.thumbprint) ∨
           (∀ i, S.env.http i (wellknownUrl S dom (sanitizeToken tok)) none =
              .httpError 500 (.raw bdy) "Internal Server Error"))
    (s : St) :
    ∃ D,
      process_auth S acct dirB (.str authUrl) s =
        .error (.wellknownFail (osPathJoin S.acmeDir (sanitizeToken tok))
                  (wellknownUrl S dom (sanitizeToken tok)),
          { reqCount := s.reqCount + 3,
            clock := s.clock + S.env.dur s.reqCount + S.env.dur (s.reqCount + 1) +
                     S.env.dur (s.reqCount + 2),
            events := s.events ++
              [.httpReq nUrl none, .httpReq authUrl (some D),
               .fileWrite (osPathJoin S.acmeDir (sanitizeToken tok))
                 (sanitizeToken tok ++ "." ++ S.thumbprint),
               .httpReq (wellknownUrl S dom (sanitizeToken tok)) none],
            sentNonces := s.sentNonces ++ [headerLookup nHdrs "Replay-Nonce"] }) ∧
      (chUrl ≠ authUrl → ∀ dd, Event.httpReq chUrl (some dd) ∉
        ([Event.httpReq nUrl none, .httpReq authUrl (some D),
          .fileWrite (osPathJoin S.acmeDir (sanitizeToken tok))
            (sanitizeToken tok ++ "." ++ S.thumbprint),
          .httpReq (wellknownUrl S dom (sanitizeToken tok)) none] : List Event)) := by
  obtain ⟨D, hsend⟩ := send_ok S acct dirB nUrl authUrl none "Error getting challenges"
    nBody nHdrs sig 200 (.json (authPendingJ dom tok chUrl "http-01")) aHdrs
    hdir hn ha (Or.inl rfl) hsign 100 0 s
  refine ⟨D, ?_, ?_⟩
  · rcases hwk with ⟨hw, hmis⟩ | hw
    · have hbeq : (bdy == sanitizeToken tok ++ "." ++ S.thumbprint) = false :=
        beq_eq_false_iff_ne.mpr hmis
      simp [process_auth, M.bind, M.liftE, M.ret, M.throw, M.recordEvent, jvalToUrl, hsend,
            subscriptBody, subscriptJVal, jLookup, authPendingJ, jvalIsStr, jvalIterate,
            findChallenge, asPyStr, pyFormatVal, hct, hdc, self_check, do_request,
            classifyResp, finishResp, hw, hbeq, bodyEqStr, isValueErr, isAssertionErr,
            List.append_assoc]
    · have hto : hasTimedOut "Internal Server Error" = false := rfl
      simp [process_auth, M.bind, M.liftE, M.ret, M.throw, M.recordEvent, jvalToUrl, hsend,
            subscriptBody, subscriptJVal, jLookup, authPendingJ, jvalIsStr, jvalIterate,
            findChallenge, asPyStr, pyFormatVal, hct, hdc, self_check, do_request,
            classifyResp, finishResp, hw, hto, bodyEqStr, isValueErr, isAssertionErr,
            List.append_assoc]
  · intro hne dd
    simp [hne, Ne.symm hne]

/-- C4 witness: the hypotheses and conclusion at the concrete double
`c4Env` (wrong self-check body `WRONG`). -/
theorem c4_selfcheck_failure_aborts_before_notify_witness :
    (fxSession c4Env).challengeType = "http-01" ∧
    (fxSession c4Env).disableCheck = false ∧
    (∀ i d, (fxSession c4Env).env.http i fxAuthU (some d) =
      .success 200 (.json (authPendingJ "example.com" "tok" fxChalU "http-01")) []) ∧
    (∀ i, (fxSession c4Env).env.http i
        (wellknownUrl (fxSession c4Env) "example.com" (sanitizeToken "tok")) none =
      .success 200 (.raw "WRONG") []) ∧
    "WRONG" ≠ sanitizeToken "tok" ++ "." ++ (fxSession c4Env).thumbprint ∧
    (∃ D,
      process_auth (fxSession c4Env) (some (some "https://ca/acct/1")) fxDir
          (.str fxAuthU) fxSt =
        .error (.wellknownFail (osPathJoin (fxSession c4Env).acmeDir (sanitizeToken "tok"))
                  (wellknownUrl (fxSession c4Env) "example.com" (sanitizeToken "tok")),
          { reqCount := fxSt.reqCount + 3,
            clock := fxSt.clock + (fxSession c4Env).env.dur fxSt.reqCount +
                     (fxSession c4Env).env.dur (fxSt.reqCount + 1) +
                     (fxSession c4Env).env.dur (fxSt.reqCount + 2),
            events := fxSt.events ++
              [.httpReq fxNonceU none, .httpReq fxAuthU (some D),
               .fileWrite (osPathJoin (fxSession c4Env).acmeDir (sanitizeToken "tok"))
                 (sanitizeToken "tok" ++ "." ++ (fxSession c4Env).thumbprint),
               .httpReq (wellknownUrl (fxSession c4Env) "example.com" (sanitizeToken "tok")) none],
            sentNonces := fxSt.sentNonces ++ [headerLookup fxNHdrs "Replay-Nonce"] }) ∧
      (fxChalU ≠ fxAuthU → ∀ dd, Event.httpReq fxChalU (some dd) ∉
        ([Event.httpReq fxNonceU none, .httpReq fxAuthU (some D),
          .fileWrite (osPathJoin (fxSession c4Env).acmeDir (sanitizeToken "tok"))
            (sanitizeToken "tok" ++ "." ++ (fxSession c4Env).thumbprint),
          .httpReq (wellknownUrl (fxSession c4Env) "example.com" (sanitizeToken "tok")) none] :
          List Event))) :=
  ⟨rfl, rfl, fun _ _ => rfl, fun _ => rfl, by decide,
   c4_selfcheck_failure_aborts_before_notify (fxSession c4Env)
     (some (some "https://ca/acct/1")) fxDir fxNonceU fxAuthU "example.com" "tok" fxChalU
     "WRONG" (.raw "") fxNHdrs [] [] [1] rfl rfl rfl (fun _ _ => rfl) (fun _ _ => rfl)
     (fun _ => rfl) (Or.inl ⟨fun _ => rfl, by decide⟩) fxSt⟩

/-- CA double for the dns-01 path: pending authorization with a dns-01
challenge, and a DNS API whose `add` action exits nonzero (aborting right
after the provisioning call, which keeps the witness run short). -/
def c6DnsEnv : Env :=
  { http := fun _ url _ =>
      if url = fxNonceU then .success 204 (.raw "") fxNHdrs
      else if url = fxAuthU then
        .success 200 (.json (authPendingJ "example.com" "tok" fxChalU "dns-01")) []
      else .urlError "unreachable",
    dur := fun _ => 0, sign := fun _ => .ok [1], dnsScriptOk := true,
    dnsApiRun := fun _ _ _ _ => .error "boom", csrDer := .ok [2] }

/-- C6: the key authorization is the sanitized token, a literal dot, and the
thumbprint. Sanitization leaves a token that is already in `[A-Za-z0-9_-]*`
unchanged, and exactly this `token.thumbprint` string is what the http-01
responder writes as file content and what the dns-01 responder passes as
the challenge payload of the `add` action. -/
theorem c6_key_authorization
    (S : Session) (acct : Option (Option String)) (dirB : Body)
    (nUrl authUrl dom tok chUrl bdy : String) (nBody : Body)
    (nHdrs aHdrs wHdrs : List (String × String)) (sig : List Nat) (em : String) (s : St) :
    (∀ t, (∀ c ∈ t.data, isAllowedTokenChar c = true) → sanitizeToken t = t) ∧
    (S.challengeType = "http-01" → S.disableCheck = false →
     subscriptBody dirB "newNonce" = .ok (.str nUrl) →
     (∀ i d, S.env.http i nUrl d = .success 204 nBody nHdrs) →
     (∀ i d, S.env.http i authUrl (some d) =
        .success 200 (.json (authPendingJ dom tok chUrl "http-01")) aHdrs) →
     (∀ x, S.env.sign x = .ok sig) →
     (∀ i, S.env.http i (wellknownUrl S dom (sanitizeToken tok)) none =
        .success 200 (.raw bdy) wHdrs) →
     bdy ≠ sanitizeToken tok ++ "." ++ S.thumbprint →
     Event.fileWrite (osPathJoin S.acmeDir (sanitizeToken tok))
         (sanitizeToken tok ++ "." ++ S.thumbprint)
       ∈ (stOf (process_auth S acct dirB (.str authUrl) s)).events) ∧
    (S.challengeType = "dns-01" →
     subscriptBody dirB "newNonce" = .ok (.str nUrl) →
     (∀ i d, S.env.http i nUrl d = .success 204 nBody nHdrs) →
     (∀ i d, S.env.http i authUrl (some d) =
        .success 200 (.json (authPendingJ dom tok chUrl "dns-01")) aHdrs) →
     (∀ x, S.env.sign x = .ok sig) →
     S.env.dnsScriptOk = true →
     (∀ a d2 t2 k2, S.env.dnsApiRun a d2 t2 k2 = .error em) →
     Event.dnsApi "add" dom (sanitizeToken tok) (sanitizeToken tok ++ "." ++ S.thumbprint)
       ∈ (stOf (process_auth S acct dirB (.str authUrl) s)).events) := by
  refine ⟨sanitize_id, ?_, ?_⟩
  · intro hct hdc hdir hn ha hsign hw hmis
    obtain ⟨D, hsend⟩ := send_ok S acct dirB nUrl authUrl none "Error getting challenges"
      nBody nHdrs sig 200 (.json (authPendingJ dom tok chUrl "http-01")) aHdrs
      hdir hn ha (Or.inl rfl) hsign 100 0 s
    have hbeq : (bdy == sanitizeToken tok ++ "." ++ S.thumbprint) = false :=
      beq_eq_false_iff_ne.mpr hmis
    simp [process_auth, M.bind, M.liftE, M.ret, M.throw, M.recordEvent, jvalToUrl, hsend,
          subscriptBody, subscriptJVal, jLookup, authPendingJ, jvalIsStr, jvalIterate,
          findChallenge, asPyStr, pyFormatVal, hct, hdc, self_check, do_request,
          classifyResp, finishResp, hw, hbeq, bodyEqStr, isValueErr, isAssertionErr,
          stOf, List.append_assoc]
  · intro hct hdir hn ha hsign hscript hrun
    obtain ⟨D, hsend⟩ := send_ok S acct dirB nUrl authUrl none "Error getting challenges"
      nBody nHdrs sig 200 (.json (authPendingJ dom tok chUrl "dns-01")) aHdrs
      hdir hn ha (Or.inl rfl) hsign 100 0 s
    have hct2 : S.challengeType ≠ "http-01" := by rw [hct]; decide
    simp [process_auth, M.bind, M.liftE, M.ret, M.throw, M.recordEvent, jvalToUrl, hsend,
          subscriptBody, subscriptJVal, jLookup, authPendingJ, jvalIsStr, jvalIterate,
          findChallenge, asPyStr, pyFormatVal, hct, hct2, execute_dns_api, hscript, hrun,
          stOf, List.append_assoc]

/-- C6 witness: the identity on an already-sanitized token, and the two
trace facts at the concrete doubles `c4Env` (http-01) and `c6DnsEnv`
(dns-01). -/
theorem c6_key_authorization_witness :
    sanitizeToken "tok" = "tok" ∧
    Event.fileWrite (osPathJoin (fxSession c4Env).acmeDir (sanitizeToken "tok"))
        (sanitizeToken "tok" ++ "." ++ (fxSession c4Env).thumbprint)
      ∈ (stOf (process_auth (fxSession c4Env) (some (some "https://ca/acct/1")) fxDir
          (.str fxAuthU) fxSt)).events ∧
    Event.dnsApi "add" "example.com" (sanitizeToken "tok")
        (sanitizeToken "tok" ++ "." ++ ({ fxSession c6DnsEnv with
          challengeType := "dns-01" } : Session).thumbprint)
      ∈ (stOf (process_auth ({ fxSession c6DnsEnv with challengeType := "dns-01" } : Session)
          (some (some "https://ca/acct/1")) fxDir (.str fxAuthU) fxSt)).events :=
  ⟨(c6_key_authorization (fxSession c4Env) none fxDir fxNonceU fxAuthU "example.com" "tok"
      fxChalU "WRONG" (.raw "") fxNHdrs [] [] [1] "boom" fxSt).1 "tok" (by decide),
   (c6_key_authorization (fxSession c4Env) (some (some "https://ca/acct/1")) fxDir fxNonceU
      fxAuthU "example.com" "tok" fxChalU "WRONG" (.raw "") fxNHdrs [] [] [1] "boom"
      fxSt).2.1 rfl rfl rfl (fun _ _ => rfl) (fun _ _ => rfl) (fun _ => rfl) (fun _ => rfl)
      (by decide),
   (c6_key_authorization ({ fxSession c6DnsEnv with challengeType := "dns-01" } : Session)
      (some (some "https://ca/acct/1")) fxDir fxNonceU fxAuthU "example.com" "tok" fxChalU
      "WRONG" (.raw "") fxNHdrs [] [] [1] "boom" fxSt).2.2 rfl rfl (fun _ _ => rfl)
      (fun _ _ => rfl) (fun _ => rfl) rfl (fun _ _ _ _ => rfl)⟩

/-- C1, evaluated at the failing input: against a CA double that rejects
every signed POST with HTTP 400 whose body `type` is the badNonce URN, a
signed request makes exactly one attempt (one nonce fetch, one POST) and
raises the network-classified `ValueError` of line 41 — no retry, no fresh
nonce, no structured ACME error. The bad-nonce `IndexError` of lines 49-50
is unreachable because `HTTPError` is a subclass of `URLError` and is
caught by the `except URLError` clause of lines 38-41 first. -/
theorem c1_badnonce_rejection_not_retried :
    ∃ D,
      send_signed_request (fxSession c1Env) none fxDir "https://ca/x" (some (.obj []))
          "Errmsg" 101 0 fxSt =
        .error (.networkErr "Errmsg: Network error: HTTP Error 400: Bad Request",
          { reqCount := 2, clock := 0,
            events := [.httpReq fxNonceU none, .httpReq "https://ca/x" (some D)],
            sentNonces := [some "n0"] }) :=
  ⟨_, rfl⟩

/-- C9 counterexample: an HTTP 400 response whose body fails JSON parsing is
neither the bad-nonce retry signal nor the HTTP-classified error — it is
re-raised by the `URLError` clause as the network `ValueError`. -/
theorem c9_http400_counterexample :
    do_request (fxSession c9Env) "https://ca/x" (some "d") "E" 0 fxSt =
      .error (.networkErr "E: Network error: HTTP Error 400: Bad Request",
        { reqCount := 1, clock := 0, events := [.httpReq "https://ca/x" (some "d")],
          sentNonces := [] }) ∧
    isRetryOrHTTPClassified
      (do_request (fxSession c9Env) "https://ca/x" (some "d") "E" 0 fxSt) = false :=
  ⟨rfl, rfl⟩

/-- C9 amended: `_do_request` is total over every HTTP 400 response — for
any 400 body (unparseable, JSON without a `type` field, or otherwise) it
raises the timeout- or network-classified `ValueError` of lines 39-41,
because `HTTPError` is caught by the `URLError` clause; it never signals
the bad-nonce retry, never raises the HTTP-classified error of lines
49-52, and never raises an unclassified exception. -/
theorem c9_http400_total_network_classified
    (S : Session) (url : String) (data : Option String) (errMsg : String) (depth : Nat)
    (s : St) (body : Body) (reason : String)
    (h : S.env.http s.reqCount url data = .httpError 400 body reason) :
    ∃ m, (do_request S url data errMsg depth s =
        .error (.timeoutErr m,
          { s with reqCount := s.reqCount + 1, clock := s.clock + S.env.dur s.reqCount,
                   events := s.events ++ [.httpReq url data] }) ∨
      do_request S url data errMsg depth s =
        .error (.networkErr m,
          { s with reqCount := s.reqCount + 1, clock := s.clock + S.env.dur s.reqCount,
                   events := s.events ++ [.httpReq url data] })) := by
  by_cases hto : hasTimedOut reason = true
  · exact ⟨timeoutMsg errMsg S.timeout, Or.inl (by simp [do_request, h, hto])⟩
  · rw [Bool.not_eq_true] at hto
    exact ⟨errMsg ++ ": Network error: HTTP Error " ++ Nat.repr 400 ++ ": " ++ reason,
      Or.inr (by simp [do_request, h, hto])⟩

/-- C9 amended witness: the hypothesis and conclusion at the concrete
double `c9Env`. -/
theorem c9_http400_total_network_classified_witness :
    (fxSession c9Env).env.http fxSt.reqCount "https://ca/x" (some "d") =
      .httpError 400 (.raw "oops") "Bad Request" ∧
    (∃ m, (do_request (fxSession c9Env) "https://ca/x" (some "d") "E" 0 fxSt =
        .error (.timeoutErr m,
          { fxSt with reqCount := fxSt.reqCount + 1,
                      clock := fxSt.clock + (fxSession c9Env).env.dur fxSt.reqCount,
                      events := fxSt.events ++ [.httpReq "https://ca/x" (some "d")] }) ∨
      do_request (fxSession c9Env) "https://ca/x" (some "d") "E" 0 fxSt =
        .error (.networkErr m,
          { fxSt with reqCount := fxSt.reqCount + 1,
                      clock := fxSt.clock + (fxSession c9Env).env.dur fxSt.reqCount,
                      events := fxSt.events ++ [.httpReq "https://ca/x" (some "d")] }))) :=
  ⟨rfl, c9_http400_total_network_classified (fxSession c9Env) "https://ca/x" (some "d") "E" 0
    fxSt (.raw "oops") "Bad Request" rfl⟩

/-- against a CA that forever reports a pending status, the polling loop
ends in the `AssertionError` "Polling timeout" as soon as the 3600-second
ceiling (measured from `t0`) is reached; the gas is never exhausted as long
as `t0 + 3602 ≤ clock + 2·gas`, because every iteration past the first
sleeps exactly 2 seconds. -/
theorem poll_pending_timeout (S : Session) (acct : Option (Option String)) (dirB : Body)
    (nUrl pollUrl : String) (pending : List String) (errMsg : String)
    (pendJ : JVal) (stV : JVal) (nBody : Body)
    (nHdrs pHdrs : List (String × String)) (sig : List Nat) (t0 : Nat)
    (hdir : subscriptBody dirB "newNonce" = .ok (.str nUrl))
    (hn : ∀ i d, S.env.http i nUrl d = .success 204 nBody nHdrs)
    (hp : ∀ i d, S.env.http i pollUrl (some d) = .success 200 (.json pendJ) pHdrs)
    (hsign : ∀ x, S.env.sign x = .ok sig)
    (hst : subscriptBody (.json pendJ) "status" = .ok stV)
    (hin : statusInList stV pending = true) :
    ∀ gas (s : St) (result : Option Body),
      (result = none ∨ result = some (.json pendJ)) →
      (result = none → t0 + 3602 ≤ s.clock + 2 * gas) →
      (result = some (.json pendJ) → t0 + 3600 ≤ s.clock + 2 * gas) →
      ∃ s', poll_aux S acct dirB pollUrl pending errMsg t0 gas result s =
          .error (.pollTimeout, s') ∧
        t0 + 3600 ≤ s'.clock ∧
        ∃ t, s'.events = s.events ++ t ∧ (∀ n, Event.sleepEv n ∈ t → n = 0 ∨ n = 2) := by
  intro gas
  induction gas with
  | zero =>
    intro s result hres h0 h1
    rcases hres with rfl | rfl
    · have hc := h0 rfl
      have hg : 3600 ≤ s.clock - t0 := by omega
      exact ⟨s, by simp [poll_aux, hg], by omega, [], by simp, by simp⟩
    · have hc := h1 rfl
      have hg : 3600 ≤ s.clock - t0 := by omega
      exact ⟨s, by simp [poll_aux, hst, hin, hg], by omega, [], by simp, by simp⟩
  | succ gas ih =>
    intro s result hres h0 h1
    rcases hres with rfl | rfl
    · by_cases hg : 3600 ≤ s.clock - t0
      · have hc : t0 + 3600 ≤ s.clock := by omega
        exact ⟨s, by simp [poll_aux, hg], hc, [], by simp, by simp⟩
      · have hc := h0 rfl
        obtain ⟨D, hsend⟩ := send_ok S acct dirB nUrl pollUrl none errMsg
          nBody nHdrs sig 200 (.json pendJ) pHdrs hdir hn hp (Or.inl rfl) hsign 100 0
          (sleepSt s 0)
        obtain ⟨s', heq, hclk, t, hev, hsleep⟩ := ih
          { reqCount := (sleepSt s 0).reqCount + 2,
            clock := (sleepSt s 0).clock + S.env.dur (sleepSt s 0).reqCount +
                     S.env.dur ((sleepSt s 0).reqCount + 1),
            events := (sleepSt s 0).events ++
              [.httpReq nUrl none, .httpReq pollUrl (some D)],
            sentNonces := (sleepSt s 0).sentNonces ++ [headerLookup nHdrs "Replay-Nonce"] }
          (some (.json pendJ)) (Or.inr rfl) (fun h => nomatch h)
          (fun _ => by simp [sleepSt]; omega)
        refine ⟨s', ?_, hclk,
          Event.sleepEv 0 :: Event.httpReq nUrl none :: Event.httpReq pollUrl (some D) :: t,
          ?_, ?_⟩
        · simp only [poll_aux, hg, if_false]
          simp only [hsend, heq]
        · rw [hev]; simp [sleepSt]
        · intro n hmem
          simp at hmem
          rcases hmem with h | h
          · exact Or.inl h
          · exact hsleep n h
    · by_cases hg : 3600 ≤ s.clock - t0
      · have hc : t0 + 3600 ≤ s.clock := by omega
        exact ⟨s, by simp [poll_aux, hst, hin, hg], hc, [], by simp, by simp⟩
      · have hc := h1 rfl
        obtain ⟨D, hsend⟩ := send_ok S acct dirB nUrl pollUrl none errMsg
          nBody nHdrs sig 200 (.json pendJ) pHdrs hdir hn hp (Or.inl rfl) hsign 100 0
          (sleepSt s 2)
        obtain ⟨s', heq, hclk, t, hev, hsleep⟩ := ih
          { reqCount := (sleepSt s 2).reqCount + 2,
            clock := (sleepSt s 2).clock + S.env.dur (sleepSt s 2).reqCount +
                     S.env.dur ((sleepSt s 2).reqCount + 1),
            events := (sleepSt s 2).events ++
              [.httpReq nUrl none, .httpReq pollUrl (some D)],
            sentNonces := (sleepSt s 2).sentNonces ++ [headerLookup nHdrs "Replay-Nonce"] }
          (some (.json pendJ)) (Or.inr rfl) (fun h => nomatch h)
          (fun _ => by simp [sleepSt]; omega)
        refine ⟨s', ?_, hclk,
          Event.sleepEv 2 :: Event.httpReq nUrl none :: Event.httpReq pollUrl (some D) :: t,
          ?_, ?_⟩
        · simp only [poll_aux, hst, hin, if_true, hg, if_false]
          simp only [hsend, heq]
        · rw [hev]; simp [sleepSt]
        · intro n hmem
          simp at hmem
          rcases hmem with h | h
          · exact Or.inr h
          · exact hsleep n h

/-- C2: the polling loop used for authorizations and orders sleeps a fixed
0 seconds before the first poll and exactly 2 seconds before every later
poll (no backoff), and enforces the hard 3600-second ceiling measured from
the clock reading taken just before the first poll: against a CA that
forever answers with a pending status it aborts with the "Polling timeout"
`AssertionError` once the elapsed time reaches 3600 seconds, and (the loop
being a total function with sufficient fuel) it never runs forever. -/
theorem c2_poll_fixed_interval_hard_timeout
    (S : Session) (acct : Option (Option String)) (dirB : Body)
    (nUrl pollUrl : String) (pending : List String) (errMsg : String)
    (pendJ stV : JVal) (nBody : Body)
    (nHdrs pHdrs : List (String × String)) (sig : List Nat)
    (hdir : subscriptBody dirB "newNonce" = .ok (.str nUrl))
    (hn : ∀ i d, S.env.http i nUrl d = .success 204 nBody nHdrs)
    (hp : ∀ i d, S.env.http i pollUrl (some d) = .success 200 (.json pendJ) pHdrs)
    (hsign : ∀ x, S.env.sign x = .ok sig)
    (hst : subscriptBody (.json pendJ) "status" = .ok stV)
    (hin : statusInList stV pending = true)
    (s : St) :
    ∃ s', poll_until_complete S acct dirB pollUrl pending errMsg s =
        .error (.pollTimeout, s') ∧
      s.clock + 3600 ≤ s'.clock ∧
      ∃ t, s'.events = s.events ++ t ∧ (∀ n, Event.sleepEv n ∈ t → n = 0 ∨ n = 2) :=
  poll_pending_timeout S acct dirB nUrl pollUrl pending errMsg pendJ stV nBody nHdrs pHdrs
    sig s.clock hdir hn hp hsign hst hin 1802 s none (Or.inl rfl)
    (fun _ => by omega) (fun h => nomatch h)

/-- C2 witness: the hypotheses and conclusion at the concrete always-pending
double `c2Env`. -/
theorem c2_poll_fixed_interval_hard_timeout_witness :
    (∀ i d, (fxSession c2Env).env.http i fxNonceU d = .success 204 (.raw "") fxNHdrs) ∧
    (∀ i d, (fxSession c2Env).env.http i fxPollU (some d) =
      .success 200 (.json pendingJ) []) ∧
    subscriptBody (.json pendingJ) "status" = .ok (.str "pending") ∧
    statusInList (.str "pending") ["pending"] = true ∧
    (∃ s', poll_until_complete (fxSession c2Env) (some (some "https://ca/acct/1")) fxDir
        fxPollU ["pending"] "Error checking challenge status" fxSt =
        .error (.pollTimeout, s') ∧
      fxSt.clock + 3600 ≤ s'.clock ∧
      ∃ t, s'.events = fxSt.events ++ t ∧ (∀ n, Event.sleepEv n ∈ t → n = 0 ∨ n = 2)) :=
  ⟨fun _ _ => rfl, fun _ _ => rfl, rfl, rfl,
   c2_poll_fixed_interval_hard_timeout (fxSession c2Env) (some (some "https://ca/acct/1"))
     fxDir fxNonceU fxPollU ["pending"] "Error checking challenge status" pendingJ
     (.str "pending") (.raw "") fxNHdrs [] [1] rfl (fun _ _ => rfl) (fun _ _ => rfl)
     (fun _ => rfl) rfl rfl fxSt⟩

/-! ### error classification machinery (towards C3) -/

theorem bind_error_cases {α β : Type} (m : M α) (f : α → M β) (s s' : St) (e : Err)
    (h : M.bind m f s = .error (e, s')) :
    m s = .error (e, s') ∨ ∃ a s₁, m s = .ok (a, s₁) ∧ f a s₁ = .error (e, s') := by
  rw [M.bind] at h
  cases hm : m s with
  | error es =>
    obtain ⟨e₁, s₁⟩ := es
    simp only [hm] at h
    simp at h
    left
    rw [h.1, h.2]
  | ok as =>
    obtain ⟨a, s₁⟩ := as
    simp only [hm] at h
    exact Or.inr ⟨a, s₁, rfl, h⟩

theorem catch_error_cases {α : Type} (m h2 : M α) (s s' : St) (e : Err)
    (h : M.catchBadNonce m h2 s = .error (e, s')) :
    m s = .error (e, s') ∨ ∃ b s₁, m s = .error (.badNonce b, s₁) ∧ h2 s₁ = .error (e, s') := by
  rw [M.catchBadNonce] at h
  cases hm : m s with
  | error es =>
    obtain ⟨e₁, s₁⟩ := es
    simp only [hm] at h
    cases e₁ <;> first
      | exact Or.inl h
      | exact Or.inr ⟨_, s₁, rfl, h⟩
  | ok as =>
    obtain ⟨a, s₁⟩ := as
    simp only [hm] at h
    exact absurd h (by simp)

theorem liftE_error {α : Type} (ex : Except Err α) (s s' : St) (e : Err)
    (h : M.liftE ex s = .error (e, s')) : ex = .error e ∧ s' = s := by
  cases ex with
  | ok a => simp [M.liftE, M.ret] at h
  | error e₁ =>
    simp [M.liftE, M.throw] at h
    exact ⟨by rw [h.1], h.2.symm⟩

theorem liftSign_error (ex : Except String (List Nat)) (s s' : St) (e : Err)
    (h : M.liftSign ex s = .error (e, s')) : ∃ m, e = .cmdErr m := by
  cases ex with
  | ok a => simp [M.liftSign, M.ret] at h
  | error m =>
    simp [M.liftSign, M.throw] at h
    exact ⟨_, h.1.symm⟩

theorem subscriptJVal_shape (v : JVal) (key : String) :
    (∃ x, subscriptJVal v key = .ok x) ∨ ∃ m, subscriptJVal v key = .error (.pyExc m) := by
  cases v
  case obj kvs =>
    rw [subscriptJVal]
    cases jLookup kvs key <;> simp
  all_goals simp [subscriptJVal]

theorem subscriptBody_shape (b : Body) (key : String) :
    (∃ x, subscriptBody b key = .ok x) ∨ ∃ m, subscriptBody b key = .error (.pyExc m) := by
  cases b with
  | json v => exact subscriptJVal_shape v key
  | raw s => exact Or.inr ⟨_, rfl⟩

theorem jvalToUrl_shape (v : JVal) :
    (∃ x, jvalToUrl v = .ok x) ∨ ∃ m, jvalToUrl v = .error (.pyExc m) := by
  cases v <;> simp [jvalToUrl]

theorem asPyStr_shape (v : JVal) :
    (∃ x, asPyStr v = .ok x) ∨ ∃ m, asPyStr v = .error (.pyExc m) := by
  cases v <;> simp [asPyStr]

theorem jvalIterate_shape (v : JVal) :
    (∃ x, jvalIterate v = .ok x) ∨ ∃ m, jvalIterate v = .error (.pyExc m) := by
  cases v <;> simp [jvalIterate]

theorem findChallenge_shape (ctype : String) (l : List JVal) :
    (∃ x, findChallenge ctype l = .ok x) ∨ ∃ m, findChallenge ctype l = .error (.pyExc m) := by
  induction l with
  | nil => exact Or.inl ⟨none, rfl⟩
  | cons c rest ih =>
    rw [findChallenge]
    rcases subscriptJVal_shape c "type" with ⟨x, hx⟩ | ⟨m, hm⟩
    · rw [hx]
      by_cases hv : jvalIsStr x ctype = true
      · simp [hv]
      · rw [Bool.not_eq_true] at hv
        simpa [hv] using ih
    · rw [hm]
      exact Or.inr ⟨m, rfl⟩

theorem finishResp_notCF (url : String) (data : Option String) (errMsg : String)
    (body : Body) (code : Option Nat) (headers : List (String × String)) (s s' : St) (e : Err)
    (h : finishResp url data errMsg body code headers s = .error (e, s')) : isCF e = false := by
  rw [finishResp] at h
  split at h
  · simp at h
  · simp at h
    rw [← h.1]
    rfl

theorem classifyResp_notCF (url : String) (data : Option String) (errMsg : String)
    (depth : Nat) (body : Body) (code : Option Nat) (headers : List (String × String))
    (s s' : St) (e : Err)
    (h : classifyResp url data errMsg depth body code headers s = .error (e, s')) :
    isCF e = false := by
  rw [classifyResp] at h
  split at h
  · rcases subscriptBody_shape body "type" with ⟨x, hx⟩ | ⟨m, hm⟩
    · simp only [hx] at h
      split at h
      · simp at h
        rw [← h.1]
        rfl
      · exact finishResp_notCF url data errMsg body code headers s s' e h
    · simp only [hm] at h
      simp at h
      rw [← h.1]
      rfl
  · exact finishResp_notCF url data errMsg body code headers s s' e h

theorem do_request_notCF (S : Session) (url : String) (data : Option String)
    (errMsg : String) (depth : Nat) (s s' : St) (e : Err)
    (h : do_request S url data errMsg depth s = .error (e, s')) : isCF e = false := by
  rw [do_request] at h
  cases ho : S.env.http s.reqCount url data <;> simp only [ho] at h
  case success code body headers => exact classifyResp_notCF _ _ _ _ _ _ _ _ _ _ h
  case ioError body => exact classifyResp_notCF _ _ _ _ _ _ _ _ _ _ h
  case sockTimeout =>
    simp at h
    rw [← h.1]
    rfl
  case urlError reason =>
    split at h <;> (simp at h; rw [← h.1]; rfl)
  case httpError code body reason =>
    split at h <;> (simp at h; rw [← h.1]; rfl)

theorem send_notCF (S : Session) (acct : Option (Option String)) (dirB : Body)
    (url : String) (payload : Option JVal) (errMsg : String) :
    ∀ fuel depth s e s',
      send_signed_request S acct dirB url payload errMsg fuel depth s = .error (e, s') →
      isCF e = false := by
  intro fuel
  induction fuel with
  | zero =>
    intro depth s e s' h
    simp only [send_signed_request] at h
    simp [M.throw] at h
    rw [← h.1]
    rfl
  | succ fuel ih =>
    intro depth s e s' h
    simp only [send_signed_request] at h
    rcases bind_error_cases _ _ _ _ _ h with h1 | ⟨nonceUrlV, s1, _, h⟩
    · obtain ⟨hex, _⟩ := liftE_error _ _ _ _ h1
      rcases subscriptBody_shape dirB "newNonce" with ⟨x, hx⟩ | ⟨m, hm⟩
      · rw [hx] at hex; cases hex
      · rw [hm] at hex
        simp at hex
        rw [← hex]
        rfl
    · rcases bind_error_cases _ _ _ _ _ h with h1 | ⟨nonceUrl, s2, _, h⟩
      · obtain ⟨hex, _⟩ := liftE_error _ _ _ _ h1
        rcases jvalToUrl_shape nonceUrlV with ⟨x, hx⟩ | ⟨m, hm⟩
        · rw [hx] at hex; cases hex
        · rw [hm] at hex
          simp at hex
          rw [← hex]
          rfl
      · rcases bind_error_cases _ _ _ _ _ h with h1 | ⟨nr, s3, _, h⟩
        · exact do_request_notCF _ _ _ _ _ _ _ _ h1
        · rcases bind_error_cases _ _ _ _ _ h with h1 | ⟨u4, s4, _, h⟩
          · simp [M.recordNonce] at h1
          · rcases bind_error_cases _ _ _ _ _ h with h1 | ⟨out, s5, _, h⟩
            · obtain ⟨m, hm⟩ := liftSign_error _ _ _ _ h1
              rw [hm]
              rfl
            · rcases catch_error_cases _ _ _ _ _ h with h1 | ⟨b, s6, _, h⟩
              · exact do_request_notCF _ _ _ _ _ _ _ _ h1
              · exact ih _ _ _ _ h

theorem poll_aux_notCF (S : Session) (acct : Option (Option String)) (dirB : Body)
    (url : String) (pending : List String) (errMsg : String) (t0 : Nat) :
    ∀ gas result s e s',
      poll_aux S acct dirB url pending errMsg t0 gas result s = .error (e, s') →
      isCF e = false := by
  intro gas
  induction gas with
  | zero =>
    intro result s e s' h
    cases result with
    | none =>
      rw [poll_aux] at h
      split at h <;> (simp at h; rw [← h.1]; rfl)
    | some b =>
      rw [poll_aux] at h
      rcases subscriptBody_shape b "status" with ⟨x, hx⟩ | ⟨m, hm⟩
      · simp only [hx] at h
        split at h
        · split at h <;> (simp at h; rw [← h.1]; rfl)
        · simp at h
      · simp only [hm] at h
        simp at h
        rw [← h.1]
        rfl
  | succ gas ih =>
    intro result s e s' h
    cases result with
    | none =>
      rw [poll_aux] at h
      split at h
      · simp at h; rw [← h.1]; rfl
      · cases hsend : send_signed_request S acct dirB url none errMsg 101 0 (sleepSt s 0) with
        | error es =>
          obtain ⟨e₁, s₁⟩ := es
          simp only [hsend] at h
          simp at h
          rw [← h.1]
          exact send_notCF _ _ _ _ _ _ _ _ _ _ _ hsend
        | ok as =>
          obtain ⟨db, s₂⟩ := as
          obtain ⟨b2, c2, hd2⟩ := db
          simp only [hsend] at h
          exact ih _ _ _ _ h
    | some b =>
      rw [poll_aux] at h
      rcases subscriptBody_shape b "status" with ⟨x, hx⟩ | ⟨m, hm⟩
      · simp only [hx] at h
        split at h
        · split at h
          · simp at h; rw [← h.1]; rfl
          · cases hsend : send_signed_request S acct dirB url none errMsg 101 0 (sleepSt s 2) with
            | error es =>
              obtain ⟨e₁, s₁⟩ := es
              simp only [hsend] at h
              simp at h
              rw [← h.1]
              exact send_notCF _ _ _ _ _ _ _ _ _ _ _ hsend
            | ok as =>
              obtain ⟨db, s₂⟩ := as
              obtain ⟨b2, c2, hd2⟩ := db
              simp only [hsend] at h
              exact ih _ _ _ _ h
        · simp at h
      · simp only [hm] at h
        simp at h
        rw [← h.1]
        rfl

theorem execute_dns_api_notCF (S : Session) (action domain token keyAuth : String)
    (s s' : St) (e : Err)
    (h : execute_dns_api S action domain token keyAuth s = .error (e, s')) :
    isCF e = false := by
  rw [execute_dns_api] at h
  split at h
  · rcases bind_error_cases _ _ _ _ _ h with h1 | ⟨a1, s1, _, h⟩
    · simp [M.recordEvent] at h1
    · cases hr : S.env.dnsApiRun action domain token keyAuth with
      | ok out =>
        simp only [hr] at h
        simp [M.ret] at h
      | error m =>
        simp only [hr] at h
        simp [M.throw] at h
        rw [← h.1]
        rfl
  · simp [M.throw] at h
    rw [← h.1]
    rfl

theorem self_check_notCF (S : Session) (domain token keyAuth path : String)
    (s s' : St) (e : Err)
    (h : self_check S domain token keyAuth path s = .error (e, s')) : isCF e = false := by
  rw [self_check] at h
  by_cases hdc : S.disableCheck = true
  · simp [hdc] at h
  · rw [Bool.not_eq_true] at hdc
    simp only [hdc, Bool.false_eq_true, if_false] at h
    cases hdo : do_request S (wellknownUrl S domain token) none "Error" 0 s with
    | error es =>
      obtain ⟨e₁, s₁⟩ := es
      simp only [hdo] at h
      split at h
      · simp at h
        rw [← h.1]
        rfl
      · simp at h
        rw [← h.1]
        exact do_request_notCF _ _ _ _ _ _ _ _ hdo
    | ok as =>
      obtain ⟨db, s₁⟩ := as
      obtain ⟨b2, c2, hd2⟩ := db
      simp only [hdo] at h
      by_cases hbe : bodyEqStr b2 keyAuth = true
      · simp [hbe] at h
      · rw [Bool.not_eq_true] at hbe
        simp [hbe] at h
        rw [← h.1]
        rfl

/-! ### trace-extension lemmas -/

theorem evExt_bind {α β : Type} {m : M α} {f : α → M β} (hm : EvExt m)
    (hf : ∀ a, EvExt (f a)) : EvExt (M.bind m f) := by
  intro s
  rw [M.bind]
  cases hmc : m s with
  | error es =>
    obtain ⟨e₁, s₁⟩ := es
    have h1 := hm s
    rw [hmc] at h1
    simpa [stOf] using h1
  | ok as =>
    obtain ⟨a, s₁⟩ := as
    have h1 := hm s
    rw [hmc] at h1
    simp [stOf] at h1
    obtain ⟨t₁, h1⟩ := h1
    obtain ⟨t₂, h2⟩ := hf a s₁
    exact ⟨t₁ ++ t₂, by rw [h2, h1, List.append_assoc]⟩

theorem evExt_catch {α : Type} {m h2 : M α} (hm : EvExt m) (hh : EvExt h2) :
    EvExt (M.catchBadNonce m h2) := by
  intro s
  rw [M.catchBadNonce]
  cases hmc : m s with
  | error es =>
    obtain ⟨e₁, s₁⟩ := es
    have h1 := hm s
    rw [hmc] at h1
    simp [stOf] at h1
    obtain ⟨t₁, h1⟩ := h1
    cases e₁ <;> first
      | exact ⟨t₁, by simpa [stOf] using h1⟩
      | (obtain ⟨t₂, hh2⟩ := hh s₁
         exact ⟨t₁ ++ t₂, by rw [hh2, h1, List.append_assoc]⟩)
  | ok as =>
    obtain ⟨a, s₁⟩ := as
    have h1 := hm s
    rw [hmc] at h1
    simpa [stOf] using h1

theorem evExt_ret {α : Type} (a : α) : EvExt (M.ret a) :=
  fun _ => ⟨[], by simp [M.ret, stOf]⟩

theorem evExt_throw {α : Type} (e : Err) : EvExt (M.throw e : M α) :=
  fun _ => ⟨[], by simp [M.throw, stOf]⟩

theorem evExt_liftE {α : Type} (ex : Except Err α) : EvExt (M.liftE ex) := by
  cases ex <;> exact fun _ => ⟨[], by simp [M.liftE, M.ret, M.throw, stOf]⟩

theorem evExt_liftSign (ex : Except String (List Nat)) : EvExt (M.liftSign ex) := by
  cases ex <;> exact fun _ => ⟨[], by simp [M.liftSign, M.ret, M.throw, stOf]⟩

theorem evExt_liftCsr (ex : Except String (List Nat)) : EvExt (M.liftCsr ex) := by
  cases ex <;> exact fun _ => ⟨[], by simp [M.liftCsr, M.ret, M.throw, stOf]⟩

theorem evExt_recordEvent (ev : Event) : EvExt (M.recordEvent ev) :=
  fun _ => ⟨[ev], by simp [M.recordEvent, stOf]⟩

theorem evExt_recordNonce (n : Option String) : EvExt (M.recordNonce n) :=
  fun _ => ⟨[], by simp [M.recordNonce, stOf]⟩

theorem evExt_pySleep (n : Nat) : EvExt (M.pySleep n) :=
  fun _ => ⟨[.sleepEv n], by simp [M.pySleep, sleepSt, stOf]⟩

theorem classifyResp_state (url : String) (data : Option String) (errMsg : String)
    (depth : Nat) (body : Body) (code : Option Nat) (headers : List (String × String))
    (s : St) : stOf (classifyResp url data errMsg depth body code headers s) = s := by
  rw [classifyResp]
  split
  · rcases subscriptBody_shape body "type" with ⟨x, hx⟩ | ⟨m, hm⟩
    · simp only [hx]
      split
      · simp [stOf]
      · rw [finishResp]
        split <;> simp [stOf]
    · simp only [hm]
      simp [stOf]
  · rw [finishResp]
    split <;> simp [stOf]

theorem evExt_do_request (S : Session) (url : String) (data : Option String)
    (errMsg : String) (depth : Nat) : EvExt (do_request S url data errMsg depth) := by
  intro s
  rw [do_request]
  refine ⟨[.httpReq url data], ?_⟩
  rcases ho : S.env.http s.reqCount url data with ⟨code, body, headers⟩ | ⟨code, body, reason⟩ |
    reason | _ | body <;> simp only [ho]
  · rw [classifyResp_state]
  · by_cases hto : hasTimedOut reason = true <;> simp [hto, stOf]
  · by_cases hto : hasTimedOut reason = true <;> simp [hto, stOf]
  · simp [stOf]
  · rw [classifyResp_state]

theorem evExt_send (S : Session) (acct : Option (Option String)) (dirB : Body)
    (url : String) (payload : Option JVal) (errMsg : String) :
    ∀ fuel depth, EvExt (send_signed_request S acct dirB url payload errMsg fuel depth) := by
  intro fuel
  induction fuel with
  | zero =>
    intro depth s
    exact ⟨[], by simp [send_signed_request, M.throw, stOf]⟩
  | succ fuel ih =>
    intro depth
    simp only [send_signed_request]
    refine evExt_bind (evExt_liftE _) (fun nonceUrlV => ?_)
    refine evExt_bind (evExt_liftE _) (fun nonceUrl => ?_)
    refine evExt_bind (evExt_do_request _ _ _ _ _) (fun nr => ?_)
    refine evExt_bind (evExt_recordNonce _) (fun _ => ?_)
    refine evExt_bind (evExt_liftSign _) (fun out => ?_)
    exact evExt_catch (evExt_do_request _ _ _ _ _) (ih _)

theorem evExt_poll_aux (S : Session) (acct : Option (Option String)) (dirB : Body)
    (url : String) (pending : List String) (errMsg : String) (t0 : Nat) :
    ∀ gas result, EvExt (poll_aux S acct dirB url pending errMsg t0 gas result) := by
  intro gas
  induction gas with
  | zero =>
    intro result s
    cases result with
    | none =>
      rw [poll_aux]
      split
      · exact ⟨[], by simp [stOf]⟩
      · exact ⟨[], by simp [stOf]⟩
    | some b =>
      rw [poll_aux]
      rcases subscriptBody_shape b "status" with ⟨x, hx⟩ | ⟨m, hm⟩
      · simp only [hx]
        split
        · split
          · exact ⟨[], by simp [stOf]⟩
          · exact ⟨[], by simp [stOf]⟩
        · exact ⟨[], by simp [stOf]⟩
      · simp only [hm]
        exact ⟨[], by simp [stOf]⟩
  | succ gas ih =>
    intro result s
    cases result with
    | none =>
      rw [poll_aux]
      split
      · exact ⟨[], by simp [stOf]⟩
      · cases hsend : send_signed_request S acct dirB url none errMsg 101 0 (sleepSt s 0) with
        | error es =>
          obtain ⟨e₁, s₁⟩ := es
          have h1 := evExt_send S acct dirB url none errMsg 101 0 (sleepSt s 0)
          rw [hsend] at h1
          simp [stOf, sleepSt] at h1
          obtain ⟨t₁, h1⟩ := h1
          exact ⟨Event.sleepEv 0 :: t₁, by simp [stOf, h1]⟩
        | ok as =>
          obtain ⟨db, s₂⟩ := as
          obtain ⟨b2, c2, hd2⟩ := db
          have h1 := evExt_send S acct dirB url none errMsg 101 0 (sleepSt s 0)
          rw [hsend] at h1
          simp [stOf, sleepSt] at h1
          obtain ⟨t₁, h1⟩ := h1
          obtain ⟨t₂, h2⟩ := ih (some b2) s₂
          refine ⟨Event.sleepEv 0 :: (t₁ ++ t₂), ?_⟩
          show (stOf (poll_aux S acct dirB url pending errMsg t0 gas (some b2) s₂)).events = _
          rw [h2, h1]
          simp
    | some b =>
      rw [poll_aux]
      rcases subscriptBody_shape b "status" with ⟨x, hx⟩ | ⟨m, hm⟩
      · simp only [hx]
        split
        · split
          · exact ⟨[], by simp [stOf]⟩
          · cases hsend : send_signed_request S acct dirB url none errMsg 101 0 (sleepSt s 2) with
            | error es =>
              obtain ⟨e₁, s₁⟩ := es
              have h1 := evExt_send S acct dirB url none errMsg 101 0 (sleepSt s 2)
              rw [hsend] at h1
              simp [stOf, sleepSt] at h1
              obtain ⟨t₁, h1⟩ := h1
              exact ⟨Event.sleepEv 2 :: t₁, by simp [stOf, h1]⟩
            | ok as =>
              obtain ⟨db, s₂⟩ := as
              obtain ⟨b2, c2, hd2⟩ := db
              have h1 := evExt_send S acct dirB url none errMsg 101 0 (sleepSt s 2)
              rw [hsend] at h1
              simp [stOf, sleepSt] at h1
              obtain ⟨t₁, h1⟩ := h1
              obtain ⟨t₂, h2⟩ := ih (some b2) s₂
              refine ⟨Event.sleepEv 2 :: (t₁ ++ t₂), ?_⟩
              show (stOf (poll_aux S acct dirB url pending errMsg t0 gas (some b2) s₂)).events = _
              rw [h2, h1]
              simp
        · exact ⟨[], by simp [stOf]⟩
      · simp only [hm]
        exact ⟨[], by simp [stOf]⟩

theorem evExt_execute_dns_api (S : Session) (action domain token keyAuth : String) :
    EvExt (execute_dns_api S action domain token keyAuth) := by
  rw [execute_dns_api]
  split
  · refine evExt_bind (evExt_recordEvent _) (fun _ => ?_)
    cases S.env.dnsApiRun action domain token keyAuth
    · exact evExt_throw _
    · exact evExt_ret _
  · exact evExt_throw _

theorem evExt_self_check (S : Session) (domain token keyAuth path : String) :
    EvExt (self_check S domain token keyAuth path) := by
  intro s
  rw [self_check]
  by_cases hdc : S.disableCheck = true
  · simp [hdc, stOf]
  · rw [Bool.not_eq_true] at hdc
    simp only [hdc, Bool.false_eq_true, if_false]
    cases hdo : do_request S (wellknownUrl S domain token) none "Error" 0 s with
    | error es =>
      obtain ⟨e₁, s₁⟩ := es
      have h1 := evExt_do_request S (wellknownUrl S domain token) none "Error" 0 s
      rw [hdo] at h1
      simp [stOf] at h1
      obtain ⟨t₁, h1⟩ := h1
      by_cases hve : isValueErr e₁ = true ∨ isAssertionErr e₁ = true
      · exact ⟨t₁, by simp [hve, stOf, h1]⟩
      · exact ⟨t₁, by simp [hve, stOf, h1]⟩
    | ok as =>
      obtain ⟨db, s₁⟩ := as
      obtain ⟨b2, c2, hd2⟩ := db
      have h1 := evExt_do_request S (wellknownUrl S domain token) none "Error" 0 s
      rw [hdo] at h1
      simp [stOf] at h1
      obtain ⟨t₁, h1⟩ := h1
      by_cases hbe : bodyEqStr b2 keyAuth = true
      · exact ⟨t₁, by simp [hbe, stOf, h1]⟩
      · rw [Bool.not_eq_true] at hbe
        exact ⟨t₁, by simp [hbe, stOf, h1]⟩

/-! ### decomposition of the per-authorization tail (towards C3) -/

theorem bind_ok_cases {α β : Type} (m : M α) (f : α → M β) (s s' : St) (b : β)
    (h : M.bind m f s = .ok (b, s')) :
    ∃ a s₁, m s = .ok (a, s₁) ∧ f a s₁ = .ok (b, s') := by
  rw [M.bind] at h
  cases hm : m s with
  | error es =>
    obtain ⟨e₁, s₁⟩ := es
    simp only [hm] at h
    cases h
  | ok as =>
    obtain ⟨a, s₁⟩ := as
    simp only [hm] at h
    exact ⟨a, s₁, rfl, h⟩

theorem liftE_ok_state {α : Type} (ex : Except Err α) (s s' : St) (a : α)
    (h : M.liftE ex s = .ok (a, s')) : s' = s := by
  cases ex with
  | ok x =>
    simp [M.liftE, M.ret] at h
    exact h.2.symm
  | error e => simp [M.liftE, M.throw] at h

theorem recordEvent_ok_state (ev : Event) (s s' : St) (u : Unit)
    (h : M.recordEvent ev s = .ok (u, s')) : s'.events = s.events ++ [ev] := by
  simp [M.recordEvent] at h
  rw [← h]

theorem execute_dns_api_ok_events (S : Session) (action domain token keyAuth : String)
    (s s' : St) (out : String)
    (h : execute_dns_api S action domain token keyAuth s = .ok (out, s')) :
    s'.events = s.events ++ [.dnsApi action domain token keyAuth] := by
  rw [execute_dns_api] at h
  split at h
  · obtain ⟨a1, s1, hok, h⟩ := bind_ok_cases _ _ _ _ _ h
    have h1 : s1.events = s.events ++ [Event.dnsApi action domain token keyAuth] :=
      recordEvent_ok_state _ _ _ _ hok
    cases hr : S.env.dnsApiRun action domain token keyAuth with
    | ok o =>
      simp only [hr] at h
      simp [M.ret] at h
      rw [← h.2, h1]
    | error m =>
      simp only [hr] at h
      simp [M.throw] at h
  · simp [M.throw] at h

theorem finish_auth_CF_cleanup (S : Session) (acct : Option (Option String)) (dirB : Body)
    (authUrl domain : String) (challenge : JVal) (token keyAuth wkPath : String)
    (s s' : St) (d : String) (a : Body)
    (h : finish_auth S acct dirB authUrl domain challenge token keyAuth wkPath s =
      .error (.challengeFailed d a, s')) :
    ∃ t, s'.events = s.events ++ t ∧
      (S.challengeType = "http-01" → Event.fileRemove wkPath ∈ t) ∧
      (S.challengeType = "dns-01" → Event.dnsApi "rm" domain token keyAuth ∈ t) := by
  rw [finish_auth] at h
  rcases bind_error_cases _ _ _ _ _ h with h1 | ⟨chUrlV, s1, hok1, h⟩
  · obtain ⟨hex, _⟩ := liftE_error _ _ _ _ h1
    rcases subscriptJVal_shape challenge "url" with ⟨x, hx⟩ | ⟨m, hm⟩
    · rw [hx] at hex; cases hex
    · rw [hm] at hex; simp at hex
  · rcases bind_error_cases _ _ _ _ _ h with h1 | ⟨chUrl, s2, hok2, h⟩
    · obtain ⟨hex, _⟩ := liftE_error _ _ _ _ h1
      rcases jvalToUrl_shape chUrlV with ⟨x, hx⟩ | ⟨m, hm⟩
      · rw [hx] at hex; cases hex
      · rw [hm] at hex; simp at hex
    · rcases bind_error_cases _ _ _ _ _ h with h1 | ⟨nres, s3, hok3, h⟩
      · have := send_notCF _ _ _ _ _ _ _ _ _ _ _ h1
        simp [isCF] at this
      · rcases bind_error_cases _ _ _ _ _ h with h1 | ⟨auth2, s4, hok4, h⟩
        · rw [poll_until_complete] at h1
          have := poll_aux_notCF _ _ _ _ _ _ _ _ _ _ _ _ h1
          simp [isCF] at this
        · rcases bind_error_cases _ _ _ _ _ h with h1 | ⟨u5, s5, hok5, h⟩
          · by_cases hct : S.challengeType = "http-01"
            · rw [if_pos hct] at h1
              simp [M.recordEvent] at h1
            · rw [if_neg hct] at h1
              by_cases hct2 : S.challengeType = "dns-01"
              · rw [if_pos hct2] at h1
                rcases bind_error_cases _ _ _ _ _ h1 with h2 | ⟨a2, s2b, _, h2⟩
                · have := execute_dns_api_notCF _ _ _ _ _ _ _ _ h2
                  simp [isCF] at this
                · simp [M.ret] at h2
              · rw [if_neg hct2] at h1
                simp [M.ret] at h1
          · rcases bind_error_cases _ _ _ _ _ h with h1 | ⟨stV, s6, hok6, h⟩
            · obtain ⟨hex, _⟩ := liftE_error _ _ _ _ h1
              rcases subscriptBody_shape auth2 "status" with ⟨x, hx⟩ | ⟨m, hm⟩
              · rw [hx] at hex; cases hex
              · rw [hm] at hex; simp at hex
            · have hs6 : s6 = s5 := liftE_ok_state _ _ _ _ hok6
              by_cases hv : jvalIsStr stV "valid" = true
              · rw [if_pos hv] at h
                simp [M.ret] at h
              · rw [Bool.not_eq_true] at hv
                rw [if_neg (by simp [hv])] at h
                simp [M.throw] at h
                obtain ⟨-, hs'⟩ := h
                -- events of the prefix states
                have e1 : s1 = s := liftE_ok_state _ _ _ _ hok1
                have e2 : s2 = s1 := liftE_ok_state _ _ _ _ hok2
                have e3 : ∃ t3, s3.events = s2.events ++ t3 := by
                  have := evExt_send S acct dirB chUrl (some (.obj []))
                    ("Error submitting challenges: " ++ domain) 101 0 s2
                  rw [hok3] at this
                  simpa [stOf] using this
                have e4 : ∃ t4, s4.events = s3.events ++ t4 := by
                  rw [poll_until_complete] at hok4
                  have := evExt_poll_aux S acct dirB authUrl ["pending"]
                    ("Error checking challenge status for " ++ domain) s3.clock 1802 none s3
                  rw [hok4] at this
                  simpa [stOf] using this
                obtain ⟨t3, e3⟩ := e3
                obtain ⟨t4, e4⟩ := e4
                by_cases hct : S.challengeType = "http-01"
                · rw [if_pos hct] at hok5
                  have e5 : s5.events = s4.events ++ [Event.fileRemove wkPath] :=
                    recordEvent_ok_state _ _ _ _ hok5
                  refine ⟨t3 ++ t4 ++ [Event.fileRemove wkPath], ?_, ?_, ?_⟩
                  · rw [← hs', hs6, e5, e4, e3, e2, e1]
                    simp [List.append_assoc]
                  · intro _; simp
                  · intro hdns; rw [hct] at hdns; exact absurd hdns (by decide)
                · rw [if_neg hct] at hok5
                  by_cases hct2 : S.challengeType = "dns-01"
                  · rw [if_pos hct2] at hok5
                    obtain ⟨o, s4b, hokd, hret⟩ := bind_ok_cases _ _ _ _ _ hok5
                    have e5b : s4b.events = s4.events ++
                        [Event.dnsApi "rm" domain token keyAuth] :=
                      execute_dns_api_ok_events _ _ _ _ _ _ _ _ hokd
                    have hs5 : s5 = s4b := by
                      simp [M.ret] at hret
                      exact hret.symm
                    refine ⟨t3 ++ t4 ++ [Event.dnsApi "rm" domain token keyAuth], ?_, ?_, ?_⟩
                    · rw [← hs', hs6, hs5, e5b, e4, e3, e2, e1]
                      simp [List.append_assoc]
                    · intro hhttp; rw [hct2] at hhttp; exact absurd hhttp (by decide)
                    · intro _; simp
                  · rw [if_neg hct2] at hok5
                    have hs5 : s5 = s4 := by
                      simp [M.ret] at hok5
                      exact hok5.symm
                    refine ⟨t3 ++ t4, ?_, ?_, ?_⟩
                    · rw [← hs', hs6, hs5, e4, e3, e2, e1]
                      simp [List.append_assoc]
                    · intro hhttp; exact absurd hhttp hct
                    · intro hdns; exact absurd hdns hct2

/-- one polling step from the initial `none` body: not timed out yet, sleep
0, refetch the authorization. -/
theorem poll_aux_step_none (S : Session) (acct : Option (Option String)) (dirB : Body)
    (url : String) (pending : List String) (errMsg : String) (t0 gas₀ : Nat) (s : St)
    (hto : ¬ 3600 ≤ s.clock - t0) (b2 : Body) (c : Option Nat)
    (hd : List (String × String)) (s₂ : St)
    (hsend : send_signed_request S acct dirB url none errMsg 101 0 (sleepSt s 0) =
      .ok ((b2, c, hd), s₂)) :
    poll_aux S acct dirB url pending errMsg t0 (gas₀ + 1) none s =
      poll_aux S acct dirB url pending errMsg t0 gas₀ (some b2) s₂ := by
  rw [show gas₀ + 1 = Nat.succ gas₀ from rfl]
  rw [poll_aux]
  rw [if_neg hto]
  simp [hsend]

/-- polling stops as soon as the fetched status is no longer pending. -/
theorem poll_aux_done (S : Session) (acct : Option (Option String)) (dirB : Body)
    (url : String) (pending : List String) (errMsg : String) (t0 gas : Nat)
    (b : Body) (s : St) (v : JVal)
    (hst : subscriptBody b "status" = .ok v) (hns : statusInList v pending = false) :
    poll_aux S acct dirB url pending errMsg t0 gas (some b) s = .ok (b, s) := by
  cases gas <;> (rw [poll_aux]; rw [hst]; simp [hns])

/-- a poll that completes on its first refetch. -/
theorem poll_first_refetch_done (S : Session) (acct : Option (Option String)) (dirB : Body)
    (url : String) (pending : List String) (errMsg : String) (s : St)
    (b2 : Body) (c : Option Nat) (hd : List (String × String)) (s₂ : St) (v : JVal)
    (hsend : send_signed_request S acct dirB url none errMsg 101 0 (sleepSt s 0) =
      .ok ((b2, c, hd), s₂))
    (hst : subscriptBody b2 "status" = .ok v) (hns : statusInList v pending = false) :
    poll_until_complete S acct dirB url pending errMsg s = .ok (b2, s₂) := by
  rw [poll_until_complete]
  rw [show (1802 : Nat) = 1801 + 1 from rfl]
  rw [poll_aux_step_none S acct dirB url pending errMsg s.clock 1801 s (by simp)
        b2 c hd s₂ hsend]
  exact poll_aux_done S acct dirB url pending errMsg s.clock 1801 b2 s₂ v hst hns

/-- a full http-01 `process_auth` run whose polled final status is not
`valid`: the well-known file is written, the self-check passes, the CA is
notified, polling completes, the cleanup removal is recorded, and the run
ends in `challengeFailed`. All the intermediate results are supplied as
equation hypotheses so that a concrete instance discharges each one by
evaluation. -/
theorem process_auth_invalid_run (S : Session) (acct : Option (Option String)) (dirB : Body)
    (authUrlV : JVal) (s : St) {authUrl : String} {authB : Body} {c0 : Option Nat}
    {hd0 : List (String × String)} {s2 : St} {identV domainV statusV chsV : JVal}
    {chs : List JVal} {challenge : JVal} {tokenV : JVal} {rawToken : String} {s3 : St}
    {chUrl : String} {nb : Body} {nc : Option Nat} {nh : List (String × String)} {s4 : St}
    {b2 : Body} {s5 : St} {v2 : JVal}
    (hu : jvalToUrl authUrlV = .ok authUrl)
    (hfetch : send_signed_request S acct dirB authUrl none "Error getting challenges" 101 0 s =
      .ok ((authB, c0, hd0), s2))
    (hident : subscriptBody authB "identifier" = .ok identV)
    (hval : subscriptJVal identV "value" = .ok domainV)
    (hstatus : subscriptBody authB "status" = .ok statusV)
    (hnv0 : jvalIsStr statusV "valid" = false)
    (hchs : subscriptBody authB "challenges" = .ok chsV)
    (hit : jvalIterate chsV = .ok chs)
    (hfind : findChallenge "http-01" chs = .ok (some challenge))
    (htok : subscriptJVal challenge "token" = .ok tokenV)
    (hraw : asPyStr tokenV = .ok rawToken)
    (hct : S.challengeType = "http-01")
    (hself : self_check S (pyFormatVal domainV) (sanitizeToken rawToken)
        (sanitizeToken rawToken ++ "." ++ S.thumbprint)
        (osPathJoin S.acmeDir (sanitizeToken rawToken))
        { s2 with events := s2.events ++
            [.fileWrite (osPathJoin S.acmeDir (sanitizeToken rawToken))
                        (sanitizeToken rawToken ++ "." ++ S.thumbprint)] } = .ok ((), s3))
    (hurl : subscriptJVal challenge "url" = .ok (.str chUrl))
    (hnotify : send_signed_request S acct dirB chUrl (some (.obj []))
        ("Error submitting challenges: " ++ pyFormatVal domainV) 101 0 s3 =
      .ok ((nb, nc, nh), s4))
    (hpoll : poll_until_complete S acct dirB authUrl ["pending"]
        ("Error checking challenge status for " ++ pyFormatVal domainV) s4 = .ok (b2, s5))
    (hst2 : subscriptBody b2 "status" = .ok v2)
    (hnv2 : jvalIsStr v2 "valid" = false) :
    process_auth S acct dirB authUrlV s =
      .error (.challengeFailed (pyFormatVal domainV) b2,
        { s5 with events := s5.events ++
            [.fileRemove (osPathJoin S.acmeDir (sanitizeToken rawToken))] }) := by
  have hj : ∀ x : String, jvalToUrl (.str x) = .ok x := fun x => rfl
  simp [process_auth, finish_auth, M.bind, M.liftE, M.ret, M.throw, M.recordEvent,
        hu, hfetch, hident, hval, hstatus, hnv0, hchs, hit, hfind, htok, hraw, hct,
        hself, hurl, hj, hnotify, hpoll, hst2, hnv2]

/-- **C3** (amended): when a processed authorization fails validation — the
polled final status is not `valid`, surfaced as the `challengeFailed` error
of line 207 — the per-type cleanup has already run: the event trace gained
the removal of the http-01 well-known file (line 201) or the DNS API `rm`
invocation (line 203), because the cleanup block of lines 199-204 precedes
the status check of line 206. (The unamended claim — cleanup on *every*
path after prepare, including when notifying the CA or polling raises — is
refuted separately: there is no `try/finally`.) -/
theorem c3_cleanup_runs_on_failed_validation (S : Session)
    (acct : Option (Option String)) (dirB : Body) (authUrlV : JVal)
    (s s' : St) (d : String) (a : Body)
    (h : process_auth S acct dirB authUrlV s = .error (.challengeFailed d a, s')) :
    ∃ t, s'.events = s.events ++ t ∧
      (S.challengeType = "http-01" → ∃ p, Event.fileRemove p ∈ t) ∧
      (S.challengeType = "dns-01" → ∃ dm tk ka, Event.dnsApi "rm" dm tk ka ∈ t) := by
  rw [process_auth] at h
  rcases bind_error_cases _ _ _ _ _ h with h1 | ⟨authUrl, s1, hok1, h⟩
  · obtain ⟨hex, _⟩ := liftE_error _ _ _ _ h1
    rcases jvalToUrl_shape authUrlV with ⟨x, hx⟩ | ⟨m, hm⟩
    · rw [hx] at hex; cases hex
    · rw [hm] at hex; simp at hex
  · rcases bind_error_cases _ _ _ _ _ h with h1 | ⟨ar, s2, hok2, h⟩
    · have := send_notCF _ _ _ _ _ _ _ _ _ _ _ h1
      simp [isCF] at this
    · rcases bind_error_cases _ _ _ _ _ h with h1 | ⟨identV, s3, hok3, h⟩
      · obtain ⟨hex, _⟩ := liftE_error _ _ _ _ h1
        rcases subscriptBody_shape ar.1 "identifier" with ⟨x, hx⟩ | ⟨m, hm⟩
        · rw [hx] at hex; cases hex
        · rw [hm] at hex; simp at hex
      · rcases bind_error_cases _ _ _ _ _ h with h1 | ⟨domainV, s4, hok4, h⟩
        · obtain ⟨hex, _⟩ := liftE_error _ _ _ _ h1
          rcases subscriptJVal_shape identV "value" with ⟨x, hx⟩ | ⟨m, hm⟩
          · rw [hx] at hex; cases hex
          · rw [hm] at hex; simp at hex
        · rcases bind_error_cases _ _ _ _ _ h with h1 | ⟨statusV, s5, hok5, h⟩
          · obtain ⟨hex, _⟩ := liftE_error _ _ _ _ h1
            rcases subscriptBody_shape ar.1 "status" with ⟨x, hx⟩ | ⟨m, hm⟩
            · rw [hx] at hex; cases hex
            · rw [hm] at hex; simp at hex
          · by_cases hv : jvalIsStr statusV "valid" = true
            · rw [if_pos hv] at h
              simp [M.ret] at h
            · rw [Bool.not_eq_true] at hv
              rw [if_neg (by simp [hv])] at h
              rcases bind_error_cases _ _ _ _ _ h with h1 | ⟨chsV, s6, hok6, h⟩
              · obtain ⟨hex, _⟩ := liftE_error _ _ _ _ h1
                rcases subscriptBody_shape ar.1 "challenges" with ⟨x, hx⟩ | ⟨m, hm⟩
                · rw [hx] at hex; cases hex
                · rw [hm] at hex; simp at hex
              · rcases bind_error_cases _ _ _ _ _ h with h1 | ⟨chs, s7, hok7, h⟩
                · obtain ⟨hex, _⟩ := liftE_error _ _ _ _ h1
                  rcases jvalIterate_shape chsV with ⟨x, hx⟩ | ⟨m, hm⟩
                  · rw [hx] at hex; cases hex
                  · rw [hm] at hex; simp at hex
                · rcases bind_error_cases _ _ _ _ _ h with h1 | ⟨chOpt, s8, hok8, h⟩
                  · obtain ⟨hex, _⟩ := liftE_error _ _ _ _ h1
                    rcases findChallenge_shape S.challengeType chs with ⟨x, hx⟩ | ⟨m, hm⟩
                    · rw [hx] at hex; cases hex
                    · rw [hm] at hex; simp at hex
                  · cases chOpt with
                    | none => simp [M.throw] at h
                    | some challenge =>
                      rcases bind_error_cases _ _ _ _ _ h with h1 | ⟨tokenV, s9, hok9, h⟩
                      · obtain ⟨hex, _⟩ := liftE_error _ _ _ _ h1
                        rcases subscriptJVal_shape challenge "token" with ⟨x, hx⟩ | ⟨m, hm⟩
                        · rw [hx] at hex; cases hex
                        · rw [hm] at hex; simp at hex
                      · rcases bind_error_cases _ _ _ _ _ h with h1 | ⟨rawToken, s10, hok10, h⟩
                        · obtain ⟨hex, _⟩ := liftE_error _ _ _ _ h1
                          rcases asPyStr_shape tokenV with ⟨x, hx⟩ | ⟨m, hm⟩
                          · rw [hx] at hex; cases hex
                          · rw [hm] at hex; simp at hex
                        · have e1 : s1 = s := liftE_ok_state _ _ _ _ hok1
                          have e2 : ∃ t2, s2.events = s1.events ++ t2 := by
                            have := evExt_send S acct dirB authUrl none
                              "Error getting challenges" 101 0 s1
                            rw [hok2] at this
                            simpa [stOf] using this
                          have e3 : s3 = s2 := liftE_ok_state _ _ _ _ hok3
                          have e4 : s4 = s3 := liftE_ok_state _ _ _ _ hok4
                          have e5 : s5 = s4 := liftE_ok_state _ _ _ _ hok5
                          have e6 : s6 = s5 := liftE_ok_state _ _ _ _ hok6
                          have e7 : s7 = s6 := liftE_ok_state _ _ _ _ hok7
                          have e8 : s8 = s7 := liftE_ok_state _ _ _ _ hok8
                          have e9 : s9 = s8 := liftE_ok_state _ _ _ _ hok9
                          have e10 : s10 = s9 := liftE_ok_state _ _ _ _ hok10
                          obtain ⟨t2, e2⟩ := e2
                          by_cases hct : S.challengeType = "http-01"
                          · rw [if_pos hct] at h
                            rcases bind_error_cases _ _ _ _ _ h with h1 | ⟨u11, s11, hok11, h⟩
                            · simp [M.recordEvent] at h1
                            · rcases bind_error_cases _ _ _ _ _ h with h1 | ⟨u12, s12, hok12, h⟩
                              · have := self_check_notCF _ _ _ _ _ _ _ _ h1
                                simp [isCF] at this
                              · obtain ⟨tf, htf, hfhttp, -⟩ :=
                                  finish_auth_CF_cleanup _ _ _ _ _ _ _ _ _ _ _ _ _ h
                                obtain ⟨ev, e11⟩ : ∃ ev, s11.events = s10.events ++ [ev] :=
                                  ⟨_, recordEvent_ok_state _ _ _ _ hok11⟩
                                have e12 : ∃ t12, s12.events = s11.events ++ t12 := by
                                  have := evExt_self_check S (pyFormatVal domainV)
                                    (sanitizeToken rawToken)
                                    (sanitizeToken rawToken ++ "." ++ S.thumbprint)
                                    (osPathJoin S.acmeDir (sanitizeToken rawToken)) s11
                                  rw [hok12] at this
                                  simpa [stOf] using this
                                obtain ⟨t12, e12⟩ := e12
                                refine ⟨t2 ++ [ev] ++ t12 ++ tf, ?_, ?_, ?_⟩
                                · rw [htf, e12, e11, e10, e9, e8, e7, e6, e5, e4, e3, e2, e1]
                                  simp [List.append_assoc]
                                · intro _
                                  exact ⟨_, List.mem_append_right _ (hfhttp hct)⟩
                                · intro hdns; rw [hct] at hdns
                                  exact absurd hdns (by decide)
                          · rw [if_neg hct] at h
                            by_cases hct2 : S.challengeType = "dns-01"
                            · rw [if_pos hct2] at h
                              rcases bind_error_cases _ _ _ _ _ h with h1 | ⟨o11, s11, hok11, h⟩
                              · have := execute_dns_api_notCF _ _ _ _ _ _ _ _ h1
                                simp [isCF] at this
                              · rcases bind_error_cases _ _ _ _ _ h with h1 | ⟨u12, s12, hok12, h⟩
                                · simp [M.pySleep] at h1
                                · obtain ⟨tf, htf, -, hfdns⟩ :=
                                    finish_auth_CF_cleanup _ _ _ _ _ _ _ _ _ _ _ _ _ h
                                  obtain ⟨ev, e11⟩ : ∃ ev, s11.events = s10.events ++ [ev] :=
                                    ⟨_, execute_dns_api_ok_events _ _ _ _ _ _ _ _ hok11⟩
                                  have e12 : ∃ t12, s12.events = s11.events ++ t12 := by
                                    have := evExt_pySleep S.dnsWait s11
                                    rw [hok12] at this
                                    simpa [stOf] using this
                                  obtain ⟨t12, e12⟩ := e12
                                  refine ⟨t2 ++ [ev] ++ t12 ++ tf, ?_, ?_, ?_⟩
                                  · rw [htf, e12, e11, e10, e9, e8, e7, e6, e5, e4, e3, e2, e1]
                                    simp [List.append_assoc]
                                  · intro hhttp; rw [hct2] at hhttp
                                    exact absurd hhttp (by decide)
                                  · intro _
                                    exact ⟨_, _, _, List.mem_append_right _ (hfdns hct2)⟩
                            · rw [if_neg hct2] at h
                              obtain ⟨tf, htf, -, -⟩ :=
                                finish_auth_CF_cleanup _ _ _ _ _ _ _ _ _ _ _ _ _ h
                              refine ⟨t2 ++ tf, ?_, ?_, ?_⟩
                              · rw [htf, e10, e9, e8, e7, e6, e5, e4, e3, e2, e1]
                                simp [List.append_assoc]
                              · intro hh; exact absurd hh hct
                              · intro hd; exact absurd hd hct2

/-- **C3** counterexample to the unamended claim: against `c3Env` (the
self-check passes, but the CA answers the challenge-notification POST with
HTTP 500) the authorization raises out of the notification; the well-known
file was written but never removed — no `try/finally` protects the cleanup
block of lines 199-204, so cleanup does not run on every path after
prepare. -/
theorem c3_notify_error_skips_cleanup :
    ∃ e s', process_auth (fxSession c3Env) (some (some "https://ca/acct/1")) fxDir
        (.str fxAuthU) fxSt = .error (e, s') ∧
      Event.fileWrite "/acme/tok" "tok.T" ∈ s'.events ∧
      ∀ p, Event.fileRemove p ∉ s'.events :=
  ⟨_, _, rfl, by decide, by intro p hp; simp [fxSt] at hp⟩

/-- **C3** witness: against `c3bEnv` (notification accepted, polling reports
the authorization `invalid`) the run fails with `challengeFailed` and the
trace indeed gained the removal of the well-known file. -/
theorem c3_cleanup_runs_on_failed_validation_witness :
    ∃ d a s', process_auth (fxSession c3bEnv) (some (some "https://ca/acct/1")) fxDir
        (.str fxAuthU) fxSt = .error (.challengeFailed d a, s') ∧
      ∃ t, s'.events = fxSt.events ++ t ∧
        ((fxSession c3bEnv).challengeType = "http-01" → ∃ p, Event.fileRemove p ∈ t) ∧
        ((fxSession c3bEnv).challengeType = "dns-01" →
          ∃ dm tk ka, Event.dnsApi "rm" dm tk ka ∈ t) := by
  have hrun := process_auth_invalid_run (fxSession c3bEnv) (some (some "https://ca/acct/1"))
    fxDir (.str fxAuthU) fxSt rfl rfl rfl rfl rfl rfl rfl rfl rfl rfl rfl rfl rfl rfl rfl
    (by exact poll_first_refetch_done _ _ _ _ _ _ _ _ _ _ _ _ rfl rfl rfl)
    (by exact rfl) (by exact rfl)
  exact ⟨_, _, _, hrun, c3_cleanup_runs_on_failed_validation _ _ _ _ _ _ _ _ hrun⟩

/-! ### nonce accounting (towards C5) -/

theorem nstate_same (nv : Nat → String) {s s' : St} (hr : s'.reqCount = s.reqCount)
    (hn : s'.sentNonces = s.sentNonces) : NState nv s s' :=
  ⟨le_of_eq hr.symm, [], List.Pairwise.nil, by simp, by simp [hn]⟩

theorem nstate_step (nv : Nat → String) {s s' : St} (hr : s'.reqCount = s.reqCount + 1)
    (hn : s'.sentNonces = s.sentNonces) : NState nv s s' :=
  ⟨by omega, [], List.Pairwise.nil, by simp, by simp [hn]⟩

theorem nstate_consume (nv : Nat → String) {s s' : St} (hr : s'.reqCount = s.reqCount + 1)
    (hn : s'.sentNonces = s.sentNonces ++ [some (nv s.reqCount)]) : NState nv s s' :=
  ⟨by omega, [s.reqCount], by simp, by simp [hr], by simp [hn]⟩

theorem nstate_trans {nv : Nat → String} {s₁ s₂ s₃ : St}
    (h1 : NState nv s₁ s₂) (h2 : NState nv s₂ s₃) : NState nv s₁ s₃ := by
  obtain ⟨hr1, ixs1, hp1, hb1, he1⟩ := h1
  obtain ⟨hr2, ixs2, hp2, hb2, he2⟩ := h2
  refine ⟨le_trans hr1 hr2, ixs1 ++ ixs2, ?_, ?_, ?_⟩
  · rw [List.pairwise_append]
    exact ⟨hp1, hp2, fun a ha b hb => lt_of_lt_of_le (hb1 a ha).2 (hb2 b hb).1⟩
  · intro i hi
    rcases List.mem_append.mp hi with h | h
    · exact ⟨(hb1 i h).1, lt_of_lt_of_le (hb1 i h).2 hr2⟩
    · exact ⟨le_trans hr1 (hb2 i h).1, (hb2 i h).2⟩
  · rw [he2, he1, List.map_append, List.append_assoc]

theorem nExt_bind {nv : Nat → String} {α β : Type} {m : M α} {f : α → M β}
    (hm : NExt nv m) (hf : ∀ a, NExt nv (f a)) : NExt nv (M.bind m f) := by
  intro s
  rw [M.bind]
  cases hmc : m s with
  | error es =>
    have h1 := hm s
    rw [hmc] at h1
    exact h1
  | ok as =>
    obtain ⟨a, s₁⟩ := as
    have h1 := hm s
    rw [hmc] at h1
    exact nstate_trans h1 (hf a s₁)

theorem nExt_catch (nv : Nat → String) {α : Type} {m h2 : M α}
    (hm : NExt nv m) (hh : NExt nv h2) : NExt nv (M.catchBadNonce m h2) := by
  intro s
  rw [M.catchBadNonce]
  cases hmc : m s with
  | error es =>
    obtain ⟨e₁, s₁⟩ := es
    have h1 := hm s
    rw [hmc] at h1
    cases e₁ <;> first
      | exact h1
      | exact nstate_trans h1 (hh s₁)
  | ok as =>
    have h1 := hm s
    rw [hmc] at h1
    exact h1

theorem nExt_ret (nv : Nat → String) {α : Type} (a : α) : NExt nv (M.ret a) :=
  fun _ => nstate_same nv rfl rfl

theorem nExt_throw (nv : Nat → String) {α : Type} (e : Err) : NExt nv (M.throw e : M α) :=
  fun _ => nstate_same nv rfl rfl

theorem nExt_liftE (nv : Nat → String) {α : Type} (ex : Except Err α) :
    NExt nv (M.liftE ex) := by
  cases ex <;> exact fun _ => nstate_same nv rfl rfl

theorem nExt_liftSign (nv : Nat → String) (ex : Except String (List Nat)) :
    NExt nv (M.liftSign ex) := by
  cases ex <;> exact fun _ => nstate_same nv rfl rfl

theorem nExt_liftCsr (nv : Nat → String) (ex : Except String (List Nat)) :
    NExt nv (M.liftCsr ex) := by
  cases ex <;> exact fun _ => nstate_same nv rfl rfl

theorem nExt_recordEvent (nv : Nat → String) (ev : Event) : NExt nv (M.recordEvent ev) :=
  fun _ => nstate_same nv rfl rfl

theorem nExt_pySleep (nv : Nat → String) (n : Nat) : NExt nv (M.pySleep n) :=
  fun _ => nstate_same nv rfl rfl

theorem do_request_nstate (nv : Nat → String) (S : Session) (url : String)
    (data : Option String) (errMsg : String) (depth : Nat) :
    NExt nv (do_request S url data errMsg depth) := by
  intro s
  rw [do_request]
  rcases ho : S.env.http s.reqCount url data with ⟨code, body, headers⟩ |
    ⟨code, body, reason⟩ | reason | _ | body <;> simp only [ho]
  · exact nstate_step nv (by rw [classifyResp_state]) (by rw [classifyResp_state])
  · split <;> exact nstate_step nv rfl rfl
  · split <;> exact nstate_step nv rfl rfl
  · exact nstate_step nv rfl rfl
  · exact nstate_step nv (by rw [classifyResp_state]) (by rw [classifyResp_state])

theorem classifyResp_ok (url : String) (data : Option String) (errMsg : String)
    (depth : Nat) (body : Body) (code : Option Nat) (headers : List (String × String))
    (s : St) (b1 : Body) (c1 : Option Nat) (h1 : List (String × String)) (s1 : St)
    (h : classifyResp url data errMsg depth body code headers s = .ok ((b1, c1, h1), s1)) :
    h1 = headers ∧ s1 = s := by
  rw [classifyResp] at h
  split at h
  · rcases subscriptBody_shape body "type" with ⟨x, hx⟩ | ⟨m, hm⟩
    · simp only [hx] at h
      split at h
      · simp at h
      · rw [finishResp] at h
        split at h
        · simp at h
          obtain ⟨hph, hs⟩ := h
          injection hph with hb ht
          injection ht with hc hh
          exact ⟨hh.symm, hs.symm⟩
        · simp at h
    · simp only [hm] at h
      simp at h
  · rw [finishResp] at h
    split at h
    · simp at h
      obtain ⟨hph, hs⟩ := h
      injection hph with hb ht
      injection ht with hc hh
      exact ⟨hh.symm, hs.symm⟩
    · simp at h

theorem do_request_ok_state (S : Session) (url : String) (data : Option String)
    (errMsg : String) (depth : Nat) (s : St) (b : Body) (c : Option Nat)
    (hd : List (String × String)) (s₁ : St)
    (h : do_request S url data errMsg depth s = .ok ((b, c, hd), s₁)) :
    s₁.reqCount = s.reqCount + 1 ∧ s₁.sentNonces = s.sentNonces := by
  rw [do_request] at h
  rcases ho : S.env.http s.reqCount url data with ⟨code, body, headers⟩ |
    ⟨code, body, reason⟩ | reason | _ | body <;> simp only [ho] at h
  · obtain ⟨-, hs⟩ := classifyResp_ok _ _ _ _ _ _ _ _ _ _ _ _ h
    exact ⟨by rw [hs], by rw [hs]⟩
  · split at h <;> simp at h
  · split at h <;> simp at h
  · simp at h
  · obtain ⟨-, hs⟩ := classifyResp_ok _ _ _ _ _ _ _ _ _ _ _ _ h
    exact ⟨by rw [hs], by rw [hs]⟩

theorem do_request_ok_nonce {S : Session} {nv : Nat → String} (hno : NonceOracle S nv)
    (url : String) (data : Option String) (errMsg : String) (depth : Nat)
    (s : St) (b : Body) (c : Option Nat) (hd : List (String × String)) (s₁ : St)
    (h : do_request S url data errMsg depth s = .ok ((b, c, hd), s₁)) :
    headerLookup hd "Replay-Nonce" = some (nv s.reqCount) := by
  rw [do_request] at h
  rcases ho : S.env.http s.reqCount url data with ⟨code, body, headers⟩ |
    ⟨code, body, reason⟩ | reason | _ | body <;> simp only [ho] at h
  · obtain ⟨hh, -⟩ := classifyResp_ok _ _ _ _ _ _ _ _ _ _ _ _ h
    rw [hh]
    exact hno.1 _ _ _ _ _ _ ho
  · split at h <;> simp at h
  · split at h <;> simp at h
  · simp at h
  · exact absurd ho (hno.2 _ _ _ _)

theorem nExt_bind_fetch {S : Session} {nv : Nat → String} (hno : NonceOracle S nv)
    (nonceUrl errM : String) {α : Type} {g : DoResp → Unit → M α}
    (hg : ∀ nr u, NExt nv (g nr u)) :
    NExt nv (M.bind (do_request S nonceUrl none errM 0)
      (fun nr => M.bind (M.recordNonce (headerLookup nr.2.2 "Replay-Nonce")) (g nr))) := by
  intro s
  rw [M.bind]
  cases h3 : do_request S nonceUrl none errM 0 s with
  | error es =>
    have h1 := do_request_nstate nv S nonceUrl none errM 0 s
    rw [h3] at h1
    exact h1
  | ok as =>
    obtain ⟨nr, s₃⟩ := as
    obtain ⟨bB, cC, hdH⟩ := nr
    have hsts := do_request_ok_state S nonceUrl none errM 0 s bB cC hdH s₃ h3
    have hval := do_request_ok_nonce hno nonceUrl none errM 0 s bB cC hdH s₃ h3
    have hN4 : NState nv s
        { s₃ with sentNonces := s₃.sentNonces ++ [headerLookup hdH "Replay-Nonce"] } := by
      rw [hval]
      exact nstate_consume nv (by simp [hsts.1]) (by simp [hsts.2])
    exact nstate_trans hN4 (hg (bB, cC, hdH) () _)

theorem send_nonces {S : Session} {nv : Nat → String} (hno : NonceOracle S nv)
    (acct : Option (Option String)) (dirB : Body) (url : String) (payload : Option JVal)
    (errMsg : String) :
    ∀ fuel depth, NExt nv (send_signed_request S acct dirB url payload errMsg fuel depth) := by
  intro fuel
  induction fuel with
  | zero =>
    intro depth s
    exact nstate_same nv rfl rfl
  | succ fuel ih =>
    intro depth
    simp only [send_signed_request]
    refine nExt_bind (nExt_liftE nv _) (fun nonceUrlV => ?_)
    refine nExt_bind (nExt_liftE nv _) (fun nonceUrl => ?_)
    refine nExt_bind_fetch hno _ _ (fun nr u => ?_)
    exact nExt_bind (nExt_liftSign nv _)
      (fun out => nExt_catch nv (do_request_nstate nv _ _ _ _ _) (ih (depth + 1)))

theorem poll_aux_nonces {S : Session} {nv : Nat → String} (hno : NonceOracle S nv)
    (acct : Option (Option String)) (dirB : Body) (url : String) (pending : List String)
    (errMsg : String) (t0 : Nat) :
    ∀ gas result, NExt nv (poll_aux S acct dirB url pending errMsg t0 gas result) := by
  intro gas
  induction gas with
  | zero =>
    intro result s
    cases result with
    | none =>
      rw [poll_aux]
      split
      · exact nstate_same nv rfl rfl
      · exact nstate_same nv rfl rfl
    | some b =>
      rw [poll_aux]
      rcases subscriptBody_shape b "status" with ⟨x, hx⟩ | ⟨m, hm⟩
      · simp only [hx]
        split
        · split
          · exact nstate_same nv rfl rfl
          · exact nstate_same nv rfl rfl
        · exact nstate_same nv rfl rfl
      · simp only [hm]
        exact nstate_same nv rfl rfl
  | succ gas ih =>
    intro result s
    cases result with
    | none =>
      rw [poll_aux]
      split
      · exact nstate_same nv rfl rfl
      · cases hsend : send_signed_request S acct dirB url none errMsg 101 0 (sleepSt s 0) with
        | error es =>
          have h1 := send_nonces hno acct dirB url none errMsg 101 0 (sleepSt s 0)
          rw [hsend] at h1
          exact nstate_trans (nstate_same nv rfl rfl : NState nv s (sleepSt s 0)) h1
        | ok as =>
          obtain ⟨db, s₂⟩ := as
          obtain ⟨b2, c2, hd2⟩ := db
          have h1 := send_nonces hno acct dirB url none errMsg 101 0 (sleepSt s 0)
          rw [hsend] at h1
          exact nstate_trans (nstate_same nv rfl rfl : NState nv s (sleepSt s 0))
            (nstate_trans h1 (ih (some b2) s₂))
    | some b =>
      rw [poll_aux]
      rcases subscriptBody_shape b "status" with ⟨x, hx⟩ | ⟨m, hm⟩
      · simp only [hx]
        split
        · split
          · exact nstate_same nv rfl rfl
          · cases hsend : send_signed_request S acct dirB url none errMsg 101 0
                (sleepSt s 2) with
            | error es =>
              have h1 := send_nonces hno acct dirB url none errMsg 101 0 (sleepSt s 2)
              rw [hsend] at h1
              exact nstate_trans (nstate_same nv rfl rfl : NState nv s (sleepSt s 2)) h1
            | ok as =>
              obtain ⟨db, s₂⟩ := as
              obtain ⟨b2, c2, hd2⟩ := db
              have h1 := send_nonces hno acct dirB url none errMsg 101 0 (sleepSt s 2)
              rw [hsend] at h1
              exact nstate_trans (nstate_same nv rfl rfl : NState nv s (sleepSt s 2))
                (nstate_trans h1 (ih (some b2) s₂))
        · exact nstate_same nv rfl rfl
      · simp only [hm]
        exact nstate_same nv rfl rfl

theorem poll_nonces {S : Session} {nv : Nat → String} (hno : NonceOracle S nv)
    (acct : Option (Option String)) (dirB : Body) (url : String) (pending : List String)
    (errMsg : String) : NExt nv (poll_until_complete S acct dirB url pending errMsg) :=
  fun s => poll_aux_nonces hno acct dirB url pending errMsg s.clock 1802 none s

theorem nExt_execute_dns_api (nv : Nat → String) (S : Session)
    (action domain token keyAuth : String) :
    NExt nv (execute_dns_api S action domain token keyAuth) := by
  rw [execute_dns_api]
  split
  · refine nExt_bind (nExt_recordEvent nv _) (fun _ => ?_)
    cases S.env.dnsApiRun action domain token keyAuth
    · exact nExt_throw nv _
    · exact nExt_ret nv _
  · exact nExt_throw nv _

theorem nExt_self_check (nv : Nat → String) (S : Session)
    (domain token keyAuth path : String) : NExt nv (self_check S domain token keyAuth path) := by
  intro s
  rw [self_check]
  by_cases hdc : S.disableCheck = true
  · simp only [hdc, if_true]
    exact nstate_same nv rfl rfl
  · rw [Bool.not_eq_true] at hdc
    simp only [hdc, Bool.false_eq_true, if_false]
    cases hdo : do_request S (wellknownUrl S domain token) none "Error" 0 s with
    | error es =>
      obtain ⟨e₁, s₁⟩ := es
      have h1 := do_request_nstate nv S (wellknownUrl S domain token) none "Error" 0 s
      rw [hdo] at h1
      by_cases hve : (isValueErr e₁ || isAssertionErr e₁) = true
      · simp only [hve, if_true]
        exact h1
      · rw [Bool.not_eq_true] at hve
        simp only [hve, Bool.false_eq_true, if_false]
        exact h1
    | ok as =>
      obtain ⟨db, s₁⟩ := as
      obtain ⟨b2, c2, hd2⟩ := db
      have h1 := do_request_nstate nv S (wellknownUrl S domain token) none "Error" 0 s
      rw [hdo] at h1
      by_cases hbe : bodyEqStr b2 keyAuth = true
      · simp only [hbe]
        exact h1
      · rw [Bool.not_eq_true] at hbe
        simp only [hbe]
        exact h1

theorem nExt_finish_auth {S : Session} {nv : Nat → String} (hno : NonceOracle S nv)
    (acct : Option (Option String)) (dirB : Body) (authUrl domain : String)
    (challenge : JVal) (token keyAuth wkPath : String) :
    NExt nv (finish_auth S acct dirB authUrl domain challenge token keyAuth wkPath) := by
  rw [finish_auth]
  refine nExt_bind (nExt_liftE nv _) (fun chUrlV => ?_)
  refine nExt_bind (nExt_liftE nv _) (fun chUrl => ?_)
  refine nExt_bind (send_nonces hno _ _ _ _ _ 101 0) (fun x => ?_)
  refine nExt_bind (poll_nonces hno _ _ _ _ _) (fun auth2 => ?_)
  refine nExt_bind ?_ (fun x => ?_)
  · split
    · exact nExt_recordEvent nv _
    · split
      · exact nExt_bind (nExt_execute_dns_api nv _ _ _ _ _) (fun x => nExt_ret nv _)
      · exact nExt_ret nv _
  · refine nExt_bind (nExt_liftE nv _) (fun stV => ?_)
    split
    · exact nExt_ret nv _
    · exact nExt_throw nv _

theorem nExt_process_auth {S : Session} {nv : Nat → String} (hno : NonceOracle S nv)
    (acct : Option (Option String)) (dirB : Body) (authUrlV : JVal) :
    NExt nv (process_auth S acct dirB authUrlV) := by
  rw [process_auth]
  refine nExt_bind (nExt_liftE nv _) (fun authUrl => ?_)
  refine nExt_bind (send_nonces hno _ _ _ _ _ 101 0) (fun ar => ?_)
  refine nExt_bind (nExt_liftE nv _) (fun identV => ?_)
  refine nExt_bind (nExt_liftE nv _) (fun domainV => ?_)
  refine nExt_bind (nExt_liftE nv _) (fun statusV => ?_)
  split
  · exact nExt_ret nv _
  · refine nExt_bind (nExt_liftE nv _) (fun chsV => ?_)
    refine nExt_bind (nExt_liftE nv _) (fun chs => ?_)
    refine nExt_bind (nExt_liftE nv _) (fun chOpt => ?_)
    cases chOpt with
    | none => exact nExt_throw nv _
    | some challenge =>
      refine nExt_bind (nExt_liftE nv _) (fun tokenV => ?_)
      refine nExt_bind (nExt_liftE nv _) (fun rawToken => ?_)
      split
      · refine nExt_bind (nExt_recordEvent nv _) (fun x => ?_)
        refine nExt_bind (nExt_self_check nv _ _ _ _ _) (fun x => ?_)
        exact nExt_finish_auth hno _ _ _ _ _ _ _ _
      · split
        · refine nExt_bind (nExt_execute_dns_api nv _ _ _ _ _) (fun x => ?_)
          refine nExt_bind (nExt_pySleep nv _) (fun x => ?_)
          exact nExt_finish_auth hno _ _ _ _ _ _ _ _
        · exact nExt_finish_auth hno _ _ _ _ _ _ _ _

theorem nExt_process_auths {S : Session} {nv : Nat → String} (hno : NonceOracle S nv)
    (acct : Option (Option String)) (dirB : Body) :
    ∀ auths, NExt nv (process_auths S acct dirB auths) := by
  intro auths
  induction auths with
  | nil =>
    rw [process_auths]
    exact nExt_ret nv _
  | cons a rest ih =>
    rw [process_auths]
    exact nExt_bind (nExt_process_auth hno _ _ _) (fun x => ih)

theorem get_crt_nonces {S : Session} {nv : Nat → String} (hno : NonceOracle S nv) :
    NExt nv (get_crt S) := by
  rw [get_crt]
  refine nExt_bind (do_request_nstate nv _ _ _ _ _) (fun dr => ?_)
  refine nExt_bind (nExt_liftE nv _) (fun naV => ?_)
  refine nExt_bind (nExt_liftE nv _) (fun naUrl => ?_)
  refine nExt_bind (send_nonces hno _ _ _ _ _ 101 0) (fun reg => ?_)
  refine nExt_bind ?_ (fun x => ?_)
  · cases S.contact with
    | none => exact nExt_ret nv _
    | some cs =>
      refine nExt_bind ?_ (fun u => ?_)
      · cases headerLookup reg.2.2 "Location" with
        | none => exact nExt_throw nv _
        | some u => exact nExt_ret nv _
      · refine nExt_bind (send_nonces hno _ _ _ _ _ 101 0) (fun cr => ?_)
        exact nExt_liftE nv _
  · refine nExt_bind (nExt_liftE nv _) (fun noV => ?_)
    refine nExt_bind (nExt_liftE nv _) (fun noUrl => ?_)
    refine nExt_bind (send_nonces hno _ _ _ _ _ 101 0) (fun onr => ?_)
    refine nExt_bind (nExt_liftE nv _) (fun authsV => ?_)
    refine nExt_bind (nExt_liftE nv _) (fun auths => ?_)
    refine nExt_bind (nExt_process_auths hno _ _ _) (fun x => ?_)
    refine nExt_bind (nExt_liftCsr nv _) (fun csr => ?_)
    refine nExt_bind (nExt_liftE nv _) (fun finV => ?_)
    refine nExt_bind (nExt_liftE nv _) (fun finUrl => ?_)
    refine nExt_bind (send_nonces hno _ _ _ _ _ 101 0) (fun x => ?_)
    refine nExt_bind ?_ (fun ordUrl => ?_)
    · cases headerLookup onr.2.2 "Location" with
      | none => exact nExt_throw nv _
      | some u => exact nExt_ret nv _
    · refine nExt_bind (poll_nonces hno _ _ _ _ _) (fun order2 => ?_)
      refine nExt_bind (nExt_liftE nv _) (fun stV => ?_)
      split
      · refine nExt_bind (nExt_liftE nv _) (fun certV => ?_)
        refine nExt_bind (nExt_liftE nv _) (fun certUrl => ?_)
        refine nExt_bind (send_nonces hno _ _ _ _ _ 101 0) (fun cr => ?_)
        exact nExt_ret nv _
      · exact nExt_throw nv _

/-- **C5**: against a CA double that issues one distinct nonce per call
(`NonceOracle` with `nv` injective), a full successful `get_crt` run
starting with no consumed nonces only ever consumes the nonces of pairwise
distinct, strictly increasing request indices — so no nonce value is sent
twice. -/
theorem c5_nonce_single_use (S : Session) (nv : Nat → String)
    (hno : NonceOracle S nv) (hinj : Function.Injective nv)
    (s s' : St) (hs : s.sentNonces = []) (b : Body)
    (h : get_crt S s = .ok (b, s')) :
    ∃ ixs : List Nat, ixs.Pairwise (· < ·) ∧
      s'.sentNonces = ixs.map (fun i => some (nv i)) ∧ s'.sentNonces.Nodup := by
  have hN := get_crt_nonces hno s
  rw [h] at hN
  obtain ⟨-, ixs, hp, -, he⟩ := hN
  simp only [stOf] at he
  refine ⟨ixs, hp, ?_, ?_⟩
  · rw [he, hs, List.nil_append]
  · rw [he, hs, List.nil_append]
    have hnd : ixs.Nodup := List.Pairwise.imp (fun hab => Nat.ne_of_lt hab) hp
    exact List.Nodup.map (fun a b hab => hinj (Option.some.inj hab)) hnd

/-- a full contact-less `get_crt` run assembled from its intermediate
results, each supplied as an equation hypothesis so that a concrete
instance discharges every one by evaluation. -/
theorem get_crt_happy_run (S : Session) (s : St)
    {dirB : Body} {dc : Option Nat} {dh : List (String × String)} {s1 : St}
    {naUrl : String} {rb : Body} {rc : Option Nat} {rh : List (String × String)} {s2 : St}
    {noUrl : String} {ob : Body} {oc : Option Nat} {oh : List (String × String)} {s3 : St}
    {authsV : JVal} {auths : List JVal} {s4 : St}
    {csr : List Nat} {finUrl : String} {fb : Body} {fc : Option Nat}
    {fh : List (String × String)} {s5 : St}
    {ordUrl : String} {o2 : Body} {s6 : St} {stv : JVal}
    {certUrl : String} {cb : Body} {cc : Option Nat} {ch : List (String × String)} {s7 : St}
    (hcontact : S.contact = none)
    (hdir : do_request S S.directoryUrl none "Error getting directory" 0 s =
      .ok ((dirB, dc, dh), s1))
    (hna : subscriptBody dirB "newAccount" = .ok (.str naUrl))
    (hreg : send_signed_request S none dirB naUrl
        (some (.obj [("termsOfServiceAgreed", .bool true)])) "Error registering" 101 0 s1 =
      .ok ((rb, rc, rh), s2))
    (hnoV : subscriptBody dirB "newOrder" = .ok (.str noUrl))
    (horder : send_signed_request S (some (headerLookup rh "Location")) dirB noUrl
        (some (.obj [("identifiers", .arr (S.domains.map (fun d =>
            JVal.obj [("type", .str "dns"), ("value", .str d)])))]))
        "Error creating new order" 101 0 s2 = .ok ((ob, oc, oh), s3))
    (hauths : subscriptBody ob "authorizations" = .ok authsV)
    (hiter2 : jvalIterate authsV = .ok auths)
    (hpas : process_auths S (some (headerLookup rh "Location")) dirB auths s3 =
      .ok ((), s4))
    (hcsr : S.env.csrDer = .ok csr)
    (hfin : subscriptBody ob "finalize" = .ok (.str finUrl))
    (hfinal : send_signed_request S (some (headerLookup rh "Location")) dirB finUrl
        (some (.obj [("csr", .str (b64_encode_jose csr))])) "Error finalizing order" 101 0 s4 =
      .ok ((fb, fc, fh), s5))
    (hloc : headerLookup oh "Location" = some ordUrl)
    (hpoll : poll_until_complete S (some (headerLookup rh "Location")) dirB ordUrl
        ["pending", "processing"] "Error checking order status" s5 = .ok (o2, s6))
    (hst : subscriptBody o2 "status" = .ok stv)
    (hstv : jvalIsStr stv "valid" = true)
    (hcert : subscriptBody o2 "certificate" = .ok (.str certUrl))
    (hdl : send_signed_request S (some (headerLookup rh "Location")) dirB certUrl none
        "Certificate download failed" 101 0 s6 = .ok ((cb, cc, ch), s7)) :
    get_crt S s = .ok (cb, s7) := by
  have hj : ∀ x : String, jvalToUrl (.str x) = .ok x := fun x => rfl
  simp [get_crt, M.bind, M.liftE, M.ret, M.throw, M.liftCsr, hcontact, hdir, hna, hj,
        hreg, hnoV, horder, hauths, hiter2, hpas, hcsr, hfin, hfinal, hloc, hpoll,
        hst, hstv, hcert, hdl]

/-- the happy-path double is a distinct-nonce CA. -/
theorem happy_nonce_oracle : NonceOracle (fxSession happyEnv) nvH := by
  constructor
  · intro i url d code body hdrs h
    simp only [fxSession, happyEnv] at h
    split_ifs at h <;> injection h with hc hb hh <;> rw [← hh] <;> rfl
  · intro i url d body h
    simp only [fxSession, happyEnv] at h
    split_ifs at h

/-- distinct request indices receive distinct nonces. -/
theorem nvH_injective : Function.Injective nvH := by
  intro a b h
  have := congrArg (fun t : String => t.data.length) h
  simpa [nvH, data_mk] using this

theorem c5_nonce_single_use_witness :
    NonceOracle (fxSession happyEnv) nvH ∧ Function.Injective nvH ∧
    fxSt.sentNonces = [] ∧
    ∃ b s', get_crt (fxSession happyEnv) fxSt = .ok (b, s') ∧
      ∃ ixs : List Nat, ixs.Pairwise (· < ·) ∧
        s'.sentNonces = ixs.map (fun i => some (nvH i)) ∧ s'.sentNonces.Nodup := by
  have hdir : do_request (fxSession happyEnv) (fxSession happyEnv).directoryUrl none
      "Error getting directory" 0 fxSt =
      .ok ((happyDirB, some 200, [("Replay-Nonce", nvH 0)]), happyS1) := rfl
  have hreg : send_signed_request (fxSession happyEnv) none happyDirB "https://ca/acct"
      (some (.obj [("termsOfServiceAgreed", .bool true)])) "Error registering" 101 0 happyS1 =
      .ok ((.json (.obj []), some 201, [("Replay-Nonce", nvH 2)]), happyS2) := rfl
  have horder : send_signed_request (fxSession happyEnv) (some none) happyDirB
      "https://ca/neworder"
      (some (.obj [("identifiers", .arr [.obj [("type", .str "dns"),
        ("value", .str "example.com")]])])) "Error creating new order" 101 0 happyS2 =
      .ok ((.json (.obj [("authorizations", .arr [.str fxAuthU]),
        ("finalize", .str "https://ca/finalize")]), some 201,
        [("Replay-Nonce", nvH 4), ("Location", "https://ca/order/1")]), happyS3) := rfl
  have hpas : process_auths (fxSession happyEnv) (some none) happyDirB [.str fxAuthU]
      happyS3 = .ok ((), happyS4) := rfl
  have hfinal : send_signed_request (fxSession happyEnv) (some none) happyDirB
      "https://ca/finalize" (some (.obj [("csr", .str (b64_encode_jose [2]))]))
      "Error finalizing order" 101 0 happyS4 =
      .ok ((.json (.obj []), some 200, [("Replay-Nonce", nvH 8)]), happyS5) := rfl
  have hsendp : send_signed_request (fxSession happyEnv) (some none) happyDirB
      "https://ca/order/1" none "Error checking order status" 101 0 (sleepSt happyS5 0) =
      .ok ((.json (.obj [("status", .str "valid"), ("certificate", .str "https://ca/cert")]),
        some 200, [("Replay-Nonce", nvH 10)]), happyS6) := rfl
  have hpoll := poll_first_refetch_done (fxSession happyEnv) (some none) happyDirB
    "https://ca/order/1" ["pending", "processing"] "Error checking order status" happyS5
    _ _ _ _ _ hsendp rfl rfl
  have hdl : send_signed_request (fxSession happyEnv) (some none) happyDirB
      "https://ca/cert" none "Certificate download failed" 101 0 happyS6 =
      .ok ((.raw "PEM", some 200, [("Replay-Nonce", nvH 12)]), happyS7) := rfl
  have hrun := get_crt_happy_run (fxSession happyEnv) fxSt rfl hdir rfl hreg rfl horder
    rfl rfl hpas rfl rfl hfinal rfl hpoll rfl rfl rfl hdl
  exact ⟨happy_nonce_oracle, nvH_injective, rfl, _, _, hrun,
    c5_nonce_single_use (fxSession happyEnv) nvH happy_nonce_oracle nvH_injective
      fxSt _ rfl _ hrun⟩

end AcmeTiny
